import Mathlib

/-!
Shallow embedding of the participant/track reconciler in `src/script.js`.

The DOM is a rose tree of elements; SDK participant snapshots are explicit
records; the functions `handleParticipantJoinedOrUpdated`, `startOrUpdateTrack`,
`updateVideoUi`, `destroyTracks`, `updateUiForDevicesState` and `leave` are
translated as state transformers over the document, instrumented with an
append-only effect trace (creations, source bindings, detachments, removals,
console logging).  JavaScript exceptions (unguarded property access on a `null`
lookup result) are modelled by an `Option String` error component carried next
to the state reached at the throw point.
-/

/-- Track types appearing in a participant's `tracks` snapshot. -/
inductive TrackType where
  | video
  | audio
deriving DecidableEq, Repr

/-- The track-type string the code builds element ids and selectors from. -/
def ttStr : TrackType → String
  | .video => "video"
  | .audio => "audio"

/-- A bound media source (a JS `MediaStream`): an object identity `sid` plus the
identities of the `MediaStreamTrack`s it contains.  `new MediaStream([t])` in
the source yields a stream with a fresh `sid` and `tracks = [t]`. -/
structure MediaStream where
  sid : Nat
  tracks : List Nat
deriving DecidableEq, Repr

/-- Attributes of one DOM element: node identity `nid`, tag name, `id`
attribute (`""` when absent), class list, inline `style.display`, the bound
`srcObject`, and `textContent`. -/
structure ElemData where
  nid : Nat
  tag : String
  idAttr : String
  classes : List String
  display : String
  srcObject : Option MediaStream
  text : String
deriving DecidableEq, Repr

/-- A DOM subtree: element data plus child subtrees in document order. -/
inductive Node where
  | node (data : ElemData) (children : List Node)

/-- Element data of the root of a subtree. -/
def Node.data : Node → ElemData
  | .node d _ => d

/-- Children of the root of a subtree. -/
def Node.children : Node → List Node
  | .node _ cs => cs

/-- Predicate selecting elements with `id` attribute `i`. -/
def isId (i : String) (d : ElemData) : Bool := d.idAttr == i

/-- Predicate for the selector `video.video-element`. -/
def isVideoEl (d : ElemData) : Bool := d.tag == "video" && d.classes.contains "video-element"

mutual
/-- First element in document preorder satisfying `q` that lies strictly below
some element satisfying `anc` (`under` records that such an ancestor was
already passed); models CSS descendant selectors such as
`#video-container-ID video.video-element`.  With `anc` constantly false and
`under = true` this is a plain preorder search. -/
def qsFind (anc q : ElemData → Bool) (under : Bool) : Node → Option ElemData
  | .node d cs =>
    if under && q d then some d
    else qsFindL anc q (under || anc d) cs

/-- Forest version of `qsFind`, children searched left to right. -/
def qsFindL (anc q : ElemData → Bool) (under : Bool) : List Node → Option ElemData
  | [] => none
  | c :: cs =>
    match qsFind anc q under c with
    | some r => some r
    | none => qsFindL anc q under cs
end


mutual
/-- Apply `f` to the data of the element `qsFind` would return; `none` when no
element matches. -/
def qsUpd (anc q : ElemData → Bool) (f : ElemData → ElemData) (under : Bool) :
    Node → Option Node
  | .node d cs =>
    if under && q d then some (.node (f d) cs)
    else (qsUpdL anc q f (under || anc d) cs).map (fun cs2 => .node d cs2)

/-- Forest version of `qsUpd`. -/
def qsUpdL (anc q : ElemData → Bool) (f : ElemData → ElemData) (under : Bool) :
    List Node → Option (List Node)
  | [] => none
  | c :: cs =>
    match qsUpd anc q f under c with
    | some c2 => some (c2 :: cs)
    | none => (qsUpdL anc q f under cs).map (fun cs2 => c :: cs2)
end


mutual
/-- Remove, with its whole subtree, the first element in preorder strictly
below the root that satisfies `q` (`parentNode.removeChild`); `none` when no
such element exists.  The root itself is never removed: it has no parent in
the model. -/
def removeFirst (q : ElemData → Bool) : Node → Option Node
  | .node d cs => (removeFirstL q cs).map (fun cs2 => .node d cs2)

/-- Forest version of `removeFirst`. -/
def removeFirstL (q : ElemData → Bool) : List Node → Option (List Node)
  | [] => none
  | c :: cs =>
    if q c.data then some cs
    else
      match removeFirst q c with
      | some c2 => some (c2 :: cs)
      | none => (removeFirstL q cs).map (fun cs2 => c :: cs2)
end


mutual
/-- Append `newC` as last child of the first element in preorder satisfying
`q`; `none` when no element matches. -/
def appendChild (q : ElemData → Bool) (newC : Node) : Node → Option Node
  | .node d cs =>
    if q d then some (.node d (cs ++ [newC]))
    else (appendChildL q newC cs).map (fun cs2 => .node d cs2)

/-- Forest version of `appendChild`. -/
def appendChildL (q : ElemData → Bool) (newC : Node) : List Node → Option (List Node)
  | [] => none
  | c :: cs =>
    match appendChild q newC c with
    | some c2 => some (c2 :: cs)
    | none => (appendChildL q newC cs).map (fun cs2 => c :: cs2)
end


mutual
/-- Number of elements satisfying `q` whose ancestor flag is set, the flag
starting at `under` and switched on below elements satisfying `anc`.  With
`anc` constantly false and `under = true` this counts all matches. -/
def countUnder (anc q : ElemData → Bool) (under : Bool) : Node → Nat
  | .node d cs =>
    (if under && q d then 1 else 0) + countUnderL anc q (under || anc d) cs

/-- Forest version of `countUnder`. -/
def countUnderL (anc q : ElemData → Bool) (under : Bool) : List Node → Nat
  | [] => 0
  | c :: cs => countUnder anc q under c + countUnderL anc q under cs
end


/-- Number of elements of the document satisfying `q`. -/
def countMatch (q : ElemData → Bool) (n : Node) : Nat :=
  countUnder (fun _ => false) q true n

mutual
/-- All `id` attributes of a subtree in document preorder (including `""` for
elements without an id). -/
def idsOf : Node → List String
  | .node d cs => d.idAttr :: idsOfL cs

/-- Forest version of `idsOf`. -/
def idsOfL : List Node → List String
  | [] => []
  | c :: cs => idsOf c ++ idsOfL cs
end


/-- Models `document.getElementById(i)`: first element with `id` attribute `i`
in document preorder. -/
def getById (i : String) (n : Node) : Option ElemData :=
  qsFind (fun _ => false) (isId i) true n

/-- Apply `f` to the data of the element `getById` would return. -/
def updById (i : String) (f : ElemData → ElemData) (n : Node) : Option Node :=
  qsUpd (fun _ => false) (isId i) f true n

mutual
/-- Models `document.getElementById(i)` followed by a `querySelector` scoped to
the found element: `none` when no element has id `i`; `some none` when the
first such element has no strict descendant satisfying `q`; `some (some d)`
otherwise, `d` the first matching descendant in preorder. -/
def findInId (i : String) (q : ElemData → Bool) : Node → Option (Option ElemData)
  | .node d cs =>
    if d.idAttr == i then some (qsFindL (fun _ => false) q true cs)
    else findInIdL i q cs

/-- Forest version of `findInId`. -/
def findInIdL (i : String) (q : ElemData → Bool) : List Node → Option (Option ElemData)
  | [] => none
  | c :: cs =>
    match findInId i q c with
    | some r => some r
    | none => findInIdL i q cs
end


mutual
/-- Update analogue of `findInId`: apply `f` to the first `q`-descendant of the
first element with id `i`.  Outer `none`: no element with id `i`; `some none`:
element found but no matching descendant; `some (some n2)`: updated tree. -/
def updInId (i : String) (q : ElemData → Bool) (f : ElemData → ElemData) :
    Node → Option (Option Node)
  | .node d cs =>
    if d.idAttr == i then
      some ((qsUpdL (fun _ => false) q f true cs).map (fun cs2 => Node.node d cs2))
    else (updInIdL i q f cs).map (fun r => r.map (fun cs2 => Node.node d cs2))

/-- Forest version of `updInId`. -/
def updInIdL (i : String) (q : ElemData → Bool) (f : ElemData → ElemData) :
    List Node → Option (Option (List Node))
  | [] => none
  | c :: cs =>
    match updInId i q f c with
    | some (some c2) => some (some (c2 :: cs))
    | some none => some none
    | none => (updInIdL i q f cs).map (fun r => r.map (fun cs2 => c :: cs2))
end


/-- Observable effects.  `evStartOrUpdate` instruments entry into
`startOrUpdateTrack`; the other constructors record DOM mutations, element
creations and console logging. -/
inductive Ev where
  | evCount
  | evCreateContainer (pid : String)
  | evCreateAudio (pid : String)
  | evStartOrUpdate (tt : TrackType) (pid : String)
  | evBind (nid : Nat) (sid : Nat)
  | evPlay (nid : Nat)
  | evDetach (nid : Nat)
  | evRemove (nid : Nat)
  | evLog (msg : String)
deriving DecidableEq, Repr

/-- Local device enablement as reported by the SDK call handle
(`this.call.localVideo()` and `this.call.localAudio()`). -/
structure CallSt where
  localVideo : Bool
  localAudio : Bool
deriving DecidableEq, Repr

/-- Reconciler state: the document tree, the append-only effect trace, a
fresh-identity counter for newly constructed objects, and the call handle. -/
structure St where
  doc : Node
  trace : List Ev
  fresh : Nat
  call : CallSt

/-- SDK track descriptor: `state` string plus the optional live
`persistentTrack` handle, identified by `MediaStreamTrack` identity. -/
structure TrackInfo where
  state : String
  persistentTrack : Option Nat
deriving DecidableEq, Repr

/-- Participant snapshot carried by `participant-joined` and
`participant-updated` events; `tracks` is kept in `Object.entries` iteration
order. -/
structure Participant where
  session_id : String
  localFlag : Bool
  tracks : List (TrackType × TrackInfo)
deriving DecidableEq, Repr

/-- A participant lifecycle event. -/
structure PEvent where
  participant : Participant
deriving DecidableEq, Repr

/-- Result of a handler step: the state reached, plus `some e` when a JS
exception `e` escaped that step (the state is the one at the throw point). -/
abbrev JsRes := St × Option String

/-- Sequence two steps, short-circuiting on an escaped exception. -/
def thenC (r : JsRes) (k : St → JsRes) : JsRes :=
  match r with
  | (st, none) => k st
  | (st, some e) => (st, some e)

/-- Append a `console.error` record to the trace. -/
def logErr (m : String) (st : St) : St := { st with trace := st.trace ++ [.evLog m] }

/-- Modelled from the spec: `updateAndDisplayParticipantCount` is not in
`src/`; per the spec it only refreshes a global participant-count display,
modelled as a trace event leaving the projection elements untouched. -/
def updateAndDisplayParticipantCount (st : St) : St :=
  { st with trace := st.trace ++ [.evCount] }

/-- Modelled from the spec: `createVideoContainer` is not in `src/`; per the
spec's DOM id conventions it creates the container `video-container-{id}`
holding a `video.video-element` child (the video element itself carries no id
attribute) and appends it under the `#videos` root. -/
def createVideoContainer (pid : String) (st : St) : St :=
  let videoChild : Node := .node ⟨st.fresh + 1, "video", "", ["video-element"], "", none, ""⟩ []
  let container : Node :=
    .node ⟨st.fresh, "div", "video-container-" ++ pid, ["video-container"], "", none, ""⟩
      [videoChild]
  { st with
    doc := (appendChild (isId "videos") container st.doc).getD st.doc
    fresh := st.fresh + 2
    trace := st.trace ++ [.evCreateContainer pid] }

/-- Modelled from the spec: `createAudioElement` is not in `src/`; per the
spec's DOM id conventions it creates the audio element `audio-{id}` under the
`#videos` root. -/
def createAudioElement (pid : String) (st : St) : St :=
  let audioEl : Node := .node ⟨st.fresh, "audio", "audio-" ++ pid, [], "", none, ""⟩ []
  { st with
    doc := (appendChild (isId "videos") audioEl st.doc).getD st.doc
    fresh := st.fresh + 1
    trace := st.trace ++ [.evCreateAudio pid] }

/-- Element lookup of `startOrUpdateTrack`: for video the document-wide
selector `#video-container-{pid} video.video-element`; for audio
`getElementById` on `audio-{pid}`. -/
def trackElLookup (tt : TrackType) (pid : String) (n : Node) : Option ElemData :=
  match tt with
  | .video => qsFind (isId ("video-container-" ++ pid)) isVideoEl false n
  | .audio => getById ("audio-" ++ pid) n

/-- Update analogue of `trackElLookup`. -/
def trackElUpd (tt : TrackType) (pid : String) (f : ElemData → ElemData) (n : Node) : Node :=
  match tt with
  | .video => (qsUpd (isId ("video-container-" ++ pid)) isVideoEl f false n).getD n
  | .audio => (updById ("audio-" ++ pid) f n).getD n

/-- Model of `startOrUpdateTrack(trackType, track, participantId)` from
`src/script.js`: resolve the target element; if missing, log an error and
return; otherwise rebind the element's `srcObject` to a fresh single-track
`MediaStream` unless the live handle is already among the bound source's
tracks, scheduling playback (`evPlay`) after a rebind.  A descriptor with no
live handle would reach `new MediaStream([undefined])`, which throws. -/
def startOrUpdateTrack (tt : TrackType) (track : TrackInfo) (pid : String) (st : St) : JsRes :=
  let st := { st with trace := st.trace ++ [.evStartOrUpdate tt pid] }
  match trackElLookup tt pid st.doc with
  | none =>
    (logErr (ttStr tt ++ " element does not exist for participant: " ++ pid) st, none)
  | some el =>
    match track.persistentTrack with
    | none => (st, some ("TypeError: failed to construct MediaStream for: " ++ pid))
    | some h =>
      let needsUpdate :=
        match el.srcObject with
        | none => true
        | some s => !(s.tracks.contains h)
      if needsUpdate then
        ({ st with
            doc := trackElUpd tt pid (fun d => { d with srcObject := some ⟨st.fresh, [h]⟩ }) st.doc
            fresh := st.fresh + 1
            trace := st.trace ++ [.evBind el.nid st.fresh, .evPlay el.nid] }, none)
      else (st, none)

/-- Display value assigned by the `switch` in `updateVideoUi`. -/
def displayFor (state : String) : String :=
  if state == "off" || state == "interrupted" || state == "blocked" then "none" else ""

/-- Model of `updateVideoUi(track, participantId)` from `src/script.js`: look
up the participant's container by id and its `video.video-element` child by a
scoped `querySelector`, both unguarded — a missing container or missing video
child raises a TypeError — then map the track state to the video element's
`style.display`. -/
def updateVideoUi (track : TrackInfo) (pid : String) (st : St) : JsRes :=
  match findInId ("video-container-" ++ pid) isVideoEl st.doc with
  | none => (st, some ("TypeError: cannot read querySelector of null for: " ++ pid))
  | some none => (st, some ("TypeError: cannot read style of null for: " ++ pid))
  | some (some _) =>
    ({ st with
        doc := match updInId ("video-container-" ++ pid) isVideoEl
                 (fun d => { d with display := displayFor track.state }) st.doc with
               | some (some n2) => n2
               | _ => st.doc }, none)

/-- One iteration of the `trackTypes.forEach` body in `destroyTracks`: look up
the element with id `{trackType}-{participantId}`; when present, detach its
media source and remove it from the DOM; silently skip otherwise. -/
def destroyOne (tt : TrackType) (pid : String) (st : St) : St :=
  let elementId := ttStr tt ++ "-" ++ pid
  match getById elementId st.doc with
  | none => st
  | some el =>
    let doc1 := (updById elementId (fun d => { d with srcObject := none }) st.doc).getD st.doc
    let doc2 := (removeFirst (isId elementId) doc1).getD doc1
    { st with doc := doc2, trace := st.trace ++ [.evDetach el.nid, .evRemove el.nid] }

/-- Model of `destroyTracks(trackTypes, participantId)` from `src/script.js`. -/
def destroyTracks (trackTypes : List TrackType) (pid : String) (st : St) : St :=
  trackTypes.foldl (fun st tt => destroyOne tt pid st) st

/-- Model of `updateUiForDevicesState(trackType, trackInfo)` from
`src/script.js`: write the `camera-state` or `mic-state` label from the call
handle's local device enablement; the `getElementById(...).textContent` write
is unguarded, so a missing label raises a TypeError. -/
def updateUiForDevicesState (tt : TrackType) (_track : TrackInfo) (st : St) : JsRes :=
  match tt with
  | .video =>
    match getById "camera-state" st.doc with
    | none => (st, some "TypeError: cannot set textContent of null (camera-state)")
    | some _ =>
      ({ st with
          doc := (updById "camera-state"
            (fun d => { d with
              text := "Camera: " ++ (if st.call.localVideo then "On" else "Off") }) st.doc).getD
            st.doc }, none)
  | .audio =>
    match getById "mic-state" st.doc with
    | none => (st, some "TypeError: cannot set textContent of null (mic-state)")
    | some _ =>
      ({ st with
          doc := (updById "mic-state"
            (fun d => { d with
              text := "Mic: " ++ (if st.call.localAudio then "On" else "Off") }) st.doc).getD
            st.doc }, none)

/-- One iteration of the `Object.entries(tracks).forEach` body in
`handleParticipantJoinedOrUpdated`. -/
def processTrackEntry (isLocal : Bool) (pid : String) (tt : TrackType) (ti : TrackInfo)
    (st : St) : JsRes :=
  let r1 : JsRes :=
    if ti.persistentTrack.isSome then
      if !(isLocal && tt == TrackType.audio) then startOrUpdateTrack tt ti pid st
      else (st, none)
    else (destroyTracks [tt] pid st, none)
  thenC r1 (fun st1 =>
    let r2 : JsRes := if tt == TrackType.video then updateVideoUi ti pid st1 else (st1, none)
    thenC r2 (fun st2 =>
      if isLocal then updateUiForDevicesState tt ti st2 else (st2, none)))

/-- Model of `handleParticipantJoinedOrUpdated(event)` from `src/script.js`:
refresh the participant count, lazily create the container and (for remote
participants) the audio element, then reconcile each track entry in order; an
exception thrown by one entry aborts the remaining entries and escapes to the
caller. -/
def handleParticipantJoinedOrUpdated (event : PEvent) (st : St) : JsRes :=
  let participantId := event.participant.session_id
  let isLocal := event.participant.localFlag
  let st := updateAndDisplayParticipantCount st
  let st := if (getById ("video-container-" ++ participantId) st.doc).isNone then
              createVideoContainer participantId st
            else st
  let st := if (getById ("audio-" ++ participantId) st.doc).isNone && !isLocal then
              createAudioElement participantId st
            else st
  event.participant.tracks.foldl
    (fun r p => thenC r (fun st => processTrackEntry isLocal participantId p.1 p.2 st))
    (st, none)

/-- Whether an element matches the bulk-cleanup selector
`'#videos video, audio'`: every `audio` element in the document, plus `video`
elements lying below the `#videos` root. -/
def matchesLeaveSel (under : Bool) (d : ElemData) : Bool :=
  d.tag == "audio" || (under && d.tag == "video")

mutual
/-- Cleanup loop of `leave`: for each element matching the selector, detach its
source and remove it with its subtree, in document order; `under` records
whether an ancestor has id `videos`. -/
def cleanupN (under : Bool) : Node → Node × List Ev
  | .node d cs =>
    let r := cleanupL (under || d.idAttr == "videos") cs
    (.node d r.1, r.2)

/-- Forest version of `cleanupN`. -/
def cleanupL (under : Bool) : List Node → List Node × List Ev
  | [] => ([], [])
  | c :: cs =>
    if matchesLeaveSel under c.data then
      let r := cleanupL under cs
      (r.1, Ev.evDetach c.data.nid :: Ev.evRemove c.data.nid :: r.2)
    else
      let r1 := cleanupN under c
      let r2 := cleanupL under cs
      (r1.1 :: r2.1, r1.2 ++ r2.2)
end


/-- Model of `leave()` from `src/script.js`, with the SDK promise outcome made
explicit: on success run the bulk cleanup over the whole document; on failure
log and leave the DOM untouched. -/
def leave (success : Bool) (st : St) : St :=
  if success then
    let r := cleanupN false st.doc
    { st with doc := r.1, trace := st.trace ++ r.2 }
  else
    logErr "Leaving failed" st

/-- Feed a sequence of participant events through the handler; the browser
dispatches each event even when the previous handler invocation threw, so the
fold continues from the state reached at each throw point. -/
def handleAll (evs : List PEvent) (st : St) : St :=
  evs.foldl (fun st ev => (handleParticipantJoinedOrUpdated ev st).1) st

/-! ## Basic facts about the DOM tree machinery -/

/-- The DOM invariant behind idempotent creation: nonempty element ids are
pairwise distinct in the document. -/
def dupFreeIds (n : Node) : Prop := ((idsOf n).filter (fun s => s != "")).Nodup

instance (n : Node) : Decidable (dupFreeIds n) := by
  unfold dupFreeIds
  infer_instance

/-- Events that `startOrUpdateTrack`, `destroyTracks`, `updateVideoUi` and
`updateUiForDevicesState` may append for one track entry of track-type `tt`:
never a creation, and a reconcile entry only for `tt` itself. -/
def entryEv (tt : TrackType) (pid : String) (e : Ev) : Bool :=
  match e with
  | .evStartOrUpdate tt2 pid2 => tt2 == tt && pid2 == pid
  | .evCreateContainer _ => false
  | .evCreateAudio _ => false
  | .evCount => false
  | _ => true

/-- Events any single track entry may append, regardless of its track-type. -/
def entryAnyEv (pid : String) (e : Ev) : Bool :=
  match e with
  | .evStartOrUpdate _ pid2 => pid2 == pid
  | .evCreateContainer _ => false
  | .evCreateAudio _ => false
  | .evCount => false
  | _ => true

/-- Bookkeeping interface for one step of the track-entry loop: the id multiset
of the document only shrinks, and the trace grows by checked events. -/
def shapeOK (p : Ev → Bool) (st : St) (r : JsRes) : Prop :=
  List.Sublist (idsOf r.1.doc) (idsOf st.doc) ∧
  ∃ t2, r.1.trace = st.trace ++ t2 ∧ t2.all p = true

/-- Events one track entry may append when the participant is local: reconcile
entries only for the video track, never a creation. -/
def localEntryEv (pid : String) (e : Ev) : Bool :=
  match e with
  | .evStartOrUpdate tt2 pid2 => tt2 == TrackType.video && pid2 == pid
  | .evCreateContainer _ => false
  | .evCreateAudio _ => false
  | .evCount => false
  | _ => true

/-- The unconditional count refresh and the guarded creations at the top of
`handleParticipantJoinedOrUpdated`, before the per-track loop. -/
def creationPhase (ev : PEvent) (st : St) : St :=
  let participantId := ev.participant.session_id
  let isLocal := ev.participant.localFlag
  let st := updateAndDisplayParticipantCount st
  let st := if (getById ("video-container-" ++ participantId) st.doc).isNone then
              createVideoContainer participantId st
            else st
  if (getById ("audio-" ++ participantId) st.doc).isNone && !isLocal then
    createAudioElement participantId st
  else st

/-- Checks that a trace is a sequence of detach-then-remove pairs, each pair
touching one element: the media source is released before the removal. -/
def pairedTeardown : List Ev → Bool
  | [] => true
  | Ev.evDetach a :: Ev.evRemove b :: rest => a == b && pairedTeardown rest
  | _ => false

mutual
/-- Number of `video` elements that do not lie below the `#videos` root; `inV`
records whether an ancestor has id `videos`. -/
def countVideosOutside (inV : Bool) : Node → Nat
  | .node d cs =>
    (if !inV && d.tag == "video" then 1 else 0) +
      countVideosOutsideL (inV || d.idAttr == "videos") cs

/-- Forest version of `countVideosOutside`. -/
def countVideosOutsideL (inV : Bool) : List Node → Nat
  | [] => 0
  | c :: cs => countVideosOutside inV c + countVideosOutsideL inV cs
end


mutual
/-- True when every `audio` element of the tree is childless, as real
`HTMLAudioElement`s created by this page are. -/
def audiosChildless : Node → Bool
  | .node d cs => (!(d.tag == "audio") || cs.isEmpty) && audiosChildlessL cs

/-- Forest version of `audiosChildless`. -/
def audiosChildlessL : List Node → Bool
  | [] => true
  | c :: cs => audiosChildless c && audiosChildlessL cs
end

/-- Concrete fixture: body holding the `#videos` root, one complete video
projection and one audio projection for participant `p1`, and the two
device-state labels. -/
def sampleDoc : Node :=
  .node ⟨0, "body", "", [], "", none, ""⟩
    [.node ⟨1, "div", "videos", [], "", none, ""⟩
      [.node ⟨2, "div", "video-container-p1", ["video-container"], "", none, ""⟩
        [.node ⟨3, "video", "", ["video-element"], "", some ⟨50, [7]⟩, ""⟩ []],
       .node ⟨4, "audio", "audio-p1", [], "", some ⟨51, [8]⟩, ""⟩ []],
     .node ⟨5, "p", "camera-state", [], "", none, ""⟩ [],
     .node ⟨6, "p", "mic-state", [], "", none, ""⟩ []]

/-- Concrete fixture state over `sampleDoc`. -/
def sampleSt : St := ⟨sampleDoc, [], 100, ⟨true, true⟩⟩

/-- Concrete fixture: the container of `p1` exists but has no video child. -/
def brokenSt : St :=
  ⟨.node ⟨0, "body", "", [], "", none, ""⟩
    [.node ⟨1, "div", "videos", [], "", none, ""⟩
      [.node ⟨2, "div", "video-container-p1", ["video-container"], "", none, ""⟩ []]],
    [], 100, ⟨true, true⟩⟩

/-- Concrete fixture: only the `#videos` root and the device labels. -/
def videosOnlySt : St :=
  ⟨.node ⟨0, "body", "", [], "", none, ""⟩
    [.node ⟨1, "div", "videos", [], "", none, ""⟩ [],
     .node ⟨5, "p", "camera-state", [], "", none, ""⟩ [],
     .node ⟨6, "p", "mic-state", [], "", none, ""⟩ []],
    [], 100, ⟨true, true⟩⟩

/-- Remote `p1` snapshot with both tracks live. -/
def evRemoteBoth : PEvent :=
  ⟨⟨"p1", false, [(.video, ⟨"playable", some 7⟩), (.audio, ⟨"playable", some 8⟩)]⟩⟩

/-- Remote `p1` snapshot whose video descriptor has lost its live handle. -/
def evVideoOff : PEvent := ⟨⟨"p1", false, [(.video, ⟨"off", none⟩)]⟩⟩

/-- Remote `p2` snapshot whose audio descriptor has no live handle. -/
def evRemoteAudioOff : PEvent := ⟨⟨"p2", false, [(.audio, ⟨"off", none⟩)]⟩⟩

/-- Local `p3` snapshot with both tracks live. -/
def evLocalBoth : PEvent :=
  ⟨⟨"p3", true, [(.video, ⟨"playable", some 9⟩), (.audio, ⟨"playable", some 10⟩)]⟩⟩

/-- Concrete fixture: media elements both inside and outside `#videos`. -/
def strayMediaSt : St :=
  ⟨.node ⟨0, "body", "", [], "", none, ""⟩
    [.node ⟨1, "div", "videos", [], "", none, ""⟩
      [.node ⟨2, "video", "", ["video-element"], "", some ⟨50, [7]⟩, ""⟩ [],
       .node ⟨3, "audio", "audio-p1", [], "", some ⟨51, [8]⟩, ""⟩ []],
     .node ⟨4, "audio", "stray-audio", [], "", none, ""⟩ [],
     .node ⟨5, "video", "stray-video", [], "", none, ""⟩ []],
    [], 100, ⟨true, true⟩⟩

theorem Node.data_node (d : ElemData) (cs : List Node) : (Node.node d cs).data = d := rfl

theorem countUnderL_append (anc q : ElemData → Bool) (u : Bool) (l1 l2 : List Node) :
    countUnderL anc q u (l1 ++ l2) = countUnderL anc q u l1 + countUnderL anc q u l2 := by
  induction l1 with
  | nil => simp [countUnderL]
  | cons c cs ih => simp [countUnderL, ih]; omega

theorem idsOfL_append (l1 l2 : List Node) : idsOfL (l1 ++ l2) = idsOfL l1 ++ idsOfL l2 := by
  induction l1 with
  | nil => simp [idsOfL]
  | cons c cs ih => simp [idsOfL, ih]

mutual
theorem qsFind_eq_none_iff_countUnder (anc q : ElemData → Bool) (u : Bool) (n : Node) :
    qsFind anc q u n = none ↔ countUnder anc q u n = 0 := by
  cases n with
  | node d cs =>
    by_cases h : (u && q d) = true
    · simp [qsFind, countUnder, h]
    · simp [qsFind, countUnder, h, qsFindL_eq_none_iff_countUnderL]

theorem qsFindL_eq_none_iff_countUnderL (anc q : ElemData → Bool) (u : Bool) (cs : List Node) :
    qsFindL anc q u cs = none ↔ countUnderL anc q u cs = 0 := by
  cases cs with
  | nil => simp [qsFindL, countUnderL]
  | cons c cs =>
    simp only [qsFindL, countUnderL]
    cases hc : qsFind anc q u c with
    | some r =>
      simp only [hc]
      constructor
      · intro h; cases h
      · intro h
        have hcc : countUnder anc q u c = 0 := by omega
        have h2 := (qsFind_eq_none_iff_countUnder anc q u c).mpr hcc
        rw [h2] at hc; cases hc
    | none =>
      have hcc := (qsFind_eq_none_iff_countUnder anc q u c).mp hc
      simp [hc, hcc, qsFindL_eq_none_iff_countUnderL anc q u cs]
end


mutual
theorem qsUpd_eq_none_iff (anc q : ElemData → Bool) (f : ElemData → ElemData) (u : Bool)
    (n : Node) : qsUpd anc q f u n = none ↔ qsFind anc q u n = none := by
  cases n with
  | node d cs =>
    by_cases h : (u && q d) = true
    · simp [qsUpd, qsFind, h]
    · simp [qsUpd, qsFind, h, qsUpdL_eq_none_iff]

theorem qsUpdL_eq_none_iff (anc q : ElemData → Bool) (f : ElemData → ElemData) (u : Bool)
    (cs : List Node) : qsUpdL anc q f u cs = none ↔ qsFindL anc q u cs = none := by
  cases cs with
  | nil => simp [qsUpdL, qsFindL]
  | cons c cs =>
    simp only [qsUpdL, qsFindL]
    cases hc : qsUpd anc q f u c with
    | some c2 =>
      cases hf : qsFind anc q u c with
      | some r => simp [hc, hf]
      | none =>
        have h2 := (qsUpd_eq_none_iff anc q f u c).mpr hf
        rw [h2] at hc; cases hc
    | none =>
      have hf := (qsUpd_eq_none_iff anc q f u c).mp hc
      simp [hc, hf, Option.map_eq_none', qsUpdL_eq_none_iff anc q f u cs]
end


theorem qsFindL_append (anc q : ElemData → Bool) (u : Bool) (l1 l2 : List Node) :
    qsFindL anc q u (l1 ++ l2) =
      match qsFindL anc q u l1 with
      | some r => some r
      | none => qsFindL anc q u l2 := by
  induction l1 with
  | nil => simp [qsFindL]
  | cons c cs ih =>
    simp only [List.cons_append, qsFindL]
    cases hc : qsFind anc q u c with
    | some r => simp
    | none => simp [ih]

theorem qsUpd_data (anc q : ElemData → Bool) (f : ElemData → ElemData) (u : Bool)
    (n n2 : Node) (h : qsUpd anc q f u n = some n2) (hroot : (u && q n.data) = false) :
    n2.data = n.data := by
  cases n with
  | node d cs =>
    simp only [Node.data_node] at hroot
    simp only [qsUpd, hroot, Bool.false_eq_true, if_false, Option.map_eq_some'] at h
    obtain ⟨cs2, _, h2⟩ := h
    subst h2
    rfl

mutual
theorem qsFind_after_qsUpd (anc q : ElemData → Bool) (f : ElemData → ElemData)
    (hq : ∀ d, q (f d) = q d) (ha : ∀ d, anc (f d) = anc d) (u : Bool) (n n2 : Node)
    (d : ElemData) (hu : qsUpd anc q f u n = some n2) (hf : qsFind anc q u n = some d) :
    qsFind anc q u n2 = some (f d) := by
  cases n with
  | node d0 cs =>
    by_cases h : (u && q d0) = true
    · simp only [qsUpd, h, if_true, Option.some_inj] at hu
      simp only [qsFind, h, if_true, Option.some_inj] at hf
      subst hu
      subst hf
      simp [qsFind, h, hq]
    · simp only [qsUpd, h, Bool.false_eq_true, if_false, Option.map_eq_some'] at hu
      simp only [qsFind, h, Bool.false_eq_true, if_false] at hf
      obtain ⟨cs2, hcs2, hn2⟩ := hu
      subst hn2
      simp only [qsFind, h, Bool.false_eq_true, if_false]
      exact qsFindL_after_qsUpdL anc q f hq ha (u || anc d0) cs cs2 d hcs2 hf

theorem qsFindL_after_qsUpdL (anc q : ElemData → Bool) (f : ElemData → ElemData)
    (hq : ∀ d, q (f d) = q d) (ha : ∀ d, anc (f d) = anc d) (u : Bool) (cs cs2 : List Node)
    (d : ElemData) (hu : qsUpdL anc q f u cs = some cs2) (hf : qsFindL anc q u cs = some d) :
    qsFindL anc q u cs2 = some (f d) := by
  cases cs with
  | nil => cases hu
  | cons c cs =>
    simp only [qsUpdL] at hu
    simp only [qsFindL] at hf
    cases hc : qsUpd anc q f u c with
    | some c2 =>
      rw [hc] at hu
      have hcf : qsFind anc q u c ≠ none := by
        intro h0
        have := (qsUpd_eq_none_iff anc q f u c).mpr h0
        rw [this] at hc; cases hc
      cases hcfind : qsFind anc q u c with
      | none => exact absurd hcfind hcf
      | some r =>
        rw [hcfind] at hf
        simp only [Option.some_inj] at hf hu
        subst hf
        subst hu
        have := qsFind_after_qsUpd anc q f hq ha u c c2 r hc hcfind
        simp [qsFindL, this]
    | none =>
      rw [hc] at hu
      have hcfind := (qsUpd_eq_none_iff anc q f u c).mp hc
      rw [hcfind] at hf
      simp only [Option.map_eq_some'] at hu
      obtain ⟨cs2b, hcs2b, hcs2⟩ := hu
      subst hcs2
      simp only [qsFindL, hcfind]
      exact qsFindL_after_qsUpdL anc q f hq ha u cs cs2b d hcs2b hf
end


mutual
theorem idsOf_qsUpd (anc q : ElemData → Bool) (f : ElemData → ElemData)
    (hf : ∀ d, (f d).idAttr = d.idAttr) (u : Bool) (n n2 : Node)
    (h : qsUpd anc q f u n = some n2) : idsOf n2 = idsOf n := by
  cases n with
  | node d0 cs =>
    by_cases hm : (u && q d0) = true
    · simp only [qsUpd, hm, if_true, Option.some_inj] at h
      subst h
      simp [idsOf, hf]
    · simp only [qsUpd, hm, Bool.false_eq_true, if_false, Option.map_eq_some'] at h
      obtain ⟨cs2, hcs2, hn2⟩ := h
      subst hn2
      simp [idsOf, idsOfL_qsUpdL anc q f hf (u || anc d0) cs cs2 hcs2]

theorem idsOfL_qsUpdL (anc q : ElemData → Bool) (f : ElemData → ElemData)
    (hf : ∀ d, (f d).idAttr = d.idAttr) (u : Bool) (cs cs2 : List Node)
    (h : qsUpdL anc q f u cs = some cs2) : idsOfL cs2 = idsOfL cs := by
  cases cs with
  | nil => cases h
  | cons c cs =>
    simp only [qsUpdL] at h
    cases hc : qsUpd anc q f u c with
    | some c2 =>
      rw [hc] at h
      simp only [Option.some_inj] at h
      subst h
      simp [idsOfL, idsOf_qsUpd anc q f hf u c c2 hc]
    | none =>
      rw [hc] at h
      simp only [Option.map_eq_some'] at h
      obtain ⟨cs2b, hcs2b, hcs2⟩ := h
      subst hcs2
      simp [idsOfL, idsOfL_qsUpdL anc q f hf u cs cs2b hcs2b]
end


mutual
theorem idsOf_appendChild (q : ElemData → Bool) (c : Node) (n n2 : Node)
    (h : appendChild q c n = some n2) : List.Perm (idsOf n2) (idsOf n ++ idsOf c) := by
  cases n with
  | node d0 cs =>
    by_cases hm : q d0 = true
    · simp only [appendChild, hm, if_true, Option.some_inj] at h
      subst h
      simp only [idsOf, idsOfL_append, idsOfL, List.append_nil, List.cons_append]
      exact List.Perm.refl _
    · simp only [appendChild, hm, Bool.false_eq_true, if_false, Option.map_eq_some'] at h
      obtain ⟨cs2, hcs2, hn2⟩ := h
      subst hn2
      have ih := idsOfL_appendChildL q c cs cs2 hcs2
      simpa [idsOf] using ih.cons d0.idAttr

theorem idsOfL_appendChildL (q : ElemData → Bool) (c : Node) (cs cs2 : List Node)
    (h : appendChildL q c cs = some cs2) : List.Perm (idsOfL cs2) (idsOfL cs ++ idsOf c) := by
  cases cs with
  | nil => cases h
  | cons c0 cs =>
    simp only [appendChildL] at h
    cases hc : appendChild q c c0 with
    | some c2 =>
      rw [hc] at h
      simp only [Option.some_inj] at h
      subst h
      have ih := idsOf_appendChild q c c0 c2 hc
      have h1 : List.Perm (idsOf c2 ++ idsOfL cs) ((idsOf c0 ++ idsOf c) ++ idsOfL cs) :=
        ih.append_right _
      have h2 : List.Perm ((idsOf c0 ++ idsOf c) ++ idsOfL cs)
          ((idsOf c0 ++ idsOfL cs) ++ idsOf c) := by
        rw [List.append_assoc, List.append_assoc]
        exact List.Perm.append_left _ List.perm_append_comm
      simpa [idsOfL] using h1.trans h2
    | none =>
      rw [hc] at h
      simp only [Option.map_eq_some'] at h
      obtain ⟨cs2b, hcs2b, hcs2⟩ := h
      subst hcs2
      have ih := idsOfL_appendChildL q c cs cs2b hcs2b
      have h1 : List.Perm (idsOf c0 ++ idsOfL cs2b) (idsOf c0 ++ (idsOfL cs ++ idsOf c)) :=
        List.Perm.append_left _ ih
      rw [← List.append_assoc] at h1
      simpa [idsOfL] using h1
end


mutual
theorem idsOf_removeFirst (q : ElemData → Bool) (n n2 : Node)
    (h : removeFirst q n = some n2) : List.Sublist (idsOf n2) (idsOf n) := by
  cases n with
  | node d0 cs =>
    simp only [removeFirst, Option.map_eq_some'] at h
    obtain ⟨cs2, hcs2, hn2⟩ := h
    subst hn2
    simpa [idsOf] using (idsOfL_removeFirstL q cs cs2 hcs2).cons₂ d0.idAttr

theorem idsOfL_removeFirstL (q : ElemData → Bool) (cs cs2 : List Node)
    (h : removeFirstL q cs = some cs2) : List.Sublist (idsOfL cs2) (idsOfL cs) := by
  cases cs with
  | nil => cases h
  | cons c cs =>
    simp only [removeFirstL] at h
    by_cases hm : q c.data = true
    · simp only [hm, if_true, Option.some_inj] at h
      subst h
      simp only [idsOfL]
      exact List.sublist_append_right (idsOf c) (idsOfL cs)
    · simp only [hm, Bool.false_eq_true, if_false] at h
      cases hc : removeFirst q c with
      | some c2 =>
        rw [hc] at h
        simp only [Option.some_inj] at h
        subst h
        simpa [idsOfL] using
          (idsOf_removeFirst q c c2 hc).append (List.Sublist.refl (idsOfL cs))
      | none =>
        rw [hc] at h
        simp only [Option.map_eq_some'] at h
        obtain ⟨cs2b, hcs2b, hcs2⟩ := h
        subst hcs2
        simpa [idsOfL] using
          (List.Sublist.refl (idsOf c)).append (idsOfL_removeFirstL q cs cs2b hcs2b)
end


theorem countUnder_pos_of_root (q : ElemData → Bool) (c : Node) (hm : q c.data = true) :
    1 ≤ countUnder (fun _ => false) q true c := by
  cases c with
  | node d cs =>
    simp only [Node.data_node] at hm
    simp [countUnder, hm]

mutual
theorem removeFirst_isSome (q : ElemData → Bool) (n : Node) (hroot : q n.data = false)
    (hfind : qsFind (fun _ => false) q true n ≠ none) :
    (removeFirst q n).isSome = true := by
  cases n with
  | node d0 cs =>
    simp only [Node.data_node] at hroot
    simp only [qsFind, Bool.true_and, hroot, Bool.false_eq_true, if_false, Bool.or_false] at hfind
    have hrs := removeFirstL_isSome q cs hfind
    simp only [removeFirst]
    cases hrc : removeFirstL q cs with
    | some cs2 => simp
    | none => rw [hrc] at hrs; simp at hrs

theorem removeFirstL_isSome (q : ElemData → Bool) (cs : List Node)
    (hfind : qsFindL (fun _ => false) q true cs ≠ none) :
    (removeFirstL q cs).isSome = true := by
  cases cs with
  | nil => simp [qsFindL] at hfind
  | cons c cs =>
    simp only [removeFirstL]
    by_cases hm : q c.data = true
    · simp [hm]
    · simp only [hm, Bool.false_eq_true, if_false]
      simp only [qsFindL] at hfind
      cases hc : qsFind (fun _ => false) q true c with
      | some r =>
        have hne : qsFind (fun _ => false) q true c ≠ none := by simp [hc]
        have hrs := removeFirst_isSome q c (by simpa using hm) hne
        cases hrc : removeFirst q c with
        | some c2 => simp
        | none => rw [hrc] at hrs; simp at hrs
      | none =>
        rw [hc] at hfind
        have hrs := removeFirstL_isSome q cs hfind
        cases hrc : removeFirst q c with
        | some c2 => simp
        | none => simpa [hrc] using hrs
end


mutual
theorem countUnder_removeFirst (q : ElemData → Bool) (n n2 : Node)
    (h : removeFirst q n = some n2) :
    countUnder (fun _ => false) q true n2 + 1 ≤ countUnder (fun _ => false) q true n := by
  cases n with
  | node d0 cs =>
    simp only [removeFirst, Option.map_eq_some'] at h
    obtain ⟨cs2, hcs2, hn2⟩ := h
    subst hn2
    have ih := countUnderL_removeFirstL q cs cs2 hcs2
    simp only [countUnder, Bool.or_false]
    omega

theorem countUnderL_removeFirstL (q : ElemData → Bool) (cs cs2 : List Node)
    (h : removeFirstL q cs = some cs2) :
    countUnderL (fun _ => false) q true cs2 + 1 ≤ countUnderL (fun _ => false) q true cs := by
  cases cs with
  | nil => cases h
  | cons c cs =>
    simp only [removeFirstL] at h
    by_cases hm : q c.data = true
    · simp only [hm, if_true, Option.some_inj] at h
      subst h
      have := countUnder_pos_of_root q c hm
      simp only [countUnderL]
      omega
    · simp only [hm, Bool.false_eq_true, if_false] at h
      cases hc : removeFirst q c with
      | some c2 =>
        rw [hc] at h
        simp only [Option.some_inj] at h
        subst h
        have ih := countUnder_removeFirst q c c2 hc
        simp only [countUnderL]
        omega
      | none =>
        rw [hc] at h
        simp only [Option.map_eq_some'] at h
        obtain ⟨cs2b, hcs2b, hcs2⟩ := h
        subst hcs2
        have ih := countUnderL_removeFirstL q cs cs2b hcs2b
        simp only [countUnderL]
        omega
end


mutual
theorem countUnder_eq_ids_count (i : String) (n : Node) :
    countUnder (fun _ => false) (isId i) true n = (idsOf n).count i := by
  cases n with
  | node d cs =>
    have ih := countUnderL_eq_ids_count i cs
    simp only [countUnder, idsOf, Bool.or_false, List.count_cons, isId, Bool.true_and, ih]
    by_cases h : (d.idAttr == i) = true
    · simp [h]; omega
    · simp [h]

theorem countUnderL_eq_ids_count (i : String) (cs : List Node) :
    countUnderL (fun _ => false) (isId i) true cs = (idsOfL cs).count i := by
  cases cs with
  | nil => simp [countUnderL, idsOfL]
  | cons c cs =>
    simp only [countUnderL, idsOfL, List.count_append,
      countUnder_eq_ids_count i c, countUnderL_eq_ids_count i cs]
end


mutual
theorem qsFind_appendChild (p q : ElemData → Bool) (c : Node)
    (hc : qsFind (fun _ => false) q true c = none) (n n2 : Node)
    (h : appendChild p c n = some n2) :
    qsFind (fun _ => false) q true n2 = qsFind (fun _ => false) q true n := by
  cases n with
  | node d0 cs =>
    by_cases hm : p d0 = true
    · simp only [appendChild, hm, if_true, Option.some_inj] at h
      subst h
      simp only [qsFind, Bool.true_and, Bool.or_false]
      by_cases hq : q d0 = true
      · simp [hq]
      · simp only [hq, Bool.false_eq_true, if_false]
        rw [qsFindL_append]
        cases hL : qsFindL (fun _ => false) q true cs with
        | some r => simp
        | none => simp [qsFindL, hc]
    · simp only [appendChild, hm, Bool.false_eq_true, if_false, Option.map_eq_some'] at h
      obtain ⟨cs2, hcs2, hn2⟩ := h
      subst hn2
      simp only [qsFind, Bool.true_and, Bool.or_false]
      by_cases hq : q d0 = true
      · simp [hq]
      · simp only [hq, Bool.false_eq_true, if_false]
        exact qsFindL_appendChildL p q c hc cs cs2 hcs2

theorem qsFindL_appendChildL (p q : ElemData → Bool) (c : Node)
    (hc : qsFind (fun _ => false) q true c = none) (cs cs2 : List Node)
    (h : appendChildL p c cs = some cs2) :
    qsFindL (fun _ => false) q true cs2 = qsFindL (fun _ => false) q true cs := by
  cases cs with
  | nil => cases h
  | cons c0 cs =>
    simp only [appendChildL] at h
    cases hc0 : appendChild p c c0 with
    | some c2 =>
      rw [hc0] at h
      simp only [Option.some_inj] at h
      subst h
      simp only [qsFindL, qsFind_appendChild p q c hc c0 c2 hc0]
    | none =>
      rw [hc0] at h
      simp only [Option.map_eq_some'] at h
      obtain ⟨cs2b, hcs2b, hcs2⟩ := h
      subst hcs2
      simp only [qsFindL, qsFindL_appendChildL p q c hc cs cs2b hcs2b]
end


theorem vcId_ne_vId (p : String) : ("video-container-" ++ p) ≠ ("video-" ++ p) := by
  intro h
  have h2 := congrArg String.length h
  simp only [String.length_append] at h2
  have h16 : ("video-container-" : String).length = 16 := by decide
  have h6 : ("video-" : String).length = 6 := by decide
  omega

theorem vcId_ne_audioId (p q : String) : ("video-container-" ++ p) ≠ ("audio-" ++ q) := by
  intro h
  have h2 := congrArg String.data h
  simp only [String.data_append] at h2
  simp at h2

theorem audioId_ne_vId (p q : String) : ("audio-" ++ p) ≠ ("video-" ++ q) := by
  intro h
  have h2 := congrArg String.data h
  simp only [String.data_append] at h2
  simp at h2

theorem emptyId_ne_audioId (p : String) : ("" : String) ≠ ("audio-" ++ p) := by
  intro h
  have h2 := congrArg String.length h
  simp only [String.length_append] at h2
  have h6 : ("audio-" : String).length = 6 := by decide
  have h0 : ("" : String).length = 0 := by decide
  omega

theorem emptyId_ne_vId (p : String) : ("" : String) ≠ ("video-" ++ p) := by
  intro h
  have h2 := congrArg String.length h
  simp only [String.length_append] at h2
  have h6 : ("video-" : String).length = 6 := by decide
  have h0 : ("" : String).length = 0 := by decide
  omega

theorem getById_eq_none_iff (i : String) (n : Node) :
    getById i n = none ↔ i ∉ idsOf n := by
  rw [getById, qsFind_eq_none_iff_countUnder, countUnder_eq_ids_count]
  exact List.count_eq_zero

theorem dupFreeIds_count (n : Node) (h : dupFreeIds n) (i : String) (hi : i ≠ "") :
    countMatch (isId i) n ≤ 1 := by
  rw [countMatch, countUnder_eq_ids_count]
  have h2 := List.nodup_iff_count_le_one.mp h i
  rwa [List.count_filter (by simpa using hi)] at h2

mutual
theorem updInId_shape (i : String) (q : ElemData → Bool) (f : ElemData → ElemData) (n : Node) :
    (updInId i q f n = none ↔ findInId i q n = none)
    ∧ (updInId i q f n = some none ↔ findInId i q n = some none) := by
  cases n with
  | node d0 cs =>
    by_cases hm : (d0.idAttr == i) = true
    · simp only [updInId, findInId, hm, if_true]
      constructor
      · simp
      · rw [Option.some_inj, Option.some_inj, Option.map_eq_none',
          qsUpdL_eq_none_iff]
    · simp only [updInId, findInId, hm, Bool.false_eq_true, if_false]
      have ih := updInIdL_shape i q f cs
      constructor
      · rw [Option.map_eq_none']
        exact ih.1
      · constructor
        · intro h
          cases hu : updInIdL i q f cs with
          | none => rw [hu] at h; cases h
          | some r =>
            rw [hu] at h
            simp only [Option.map_some', Option.some_inj, Option.map_eq_none'] at h
            subst h
            exact ih.2.mp hu
        · intro h
          rw [ih.2.mpr h]
          rfl

theorem updInIdL_shape (i : String) (q : ElemData → Bool) (f : ElemData → ElemData)
    (cs : List Node) :
    (updInIdL i q f cs = none ↔ findInIdL i q cs = none)
    ∧ (updInIdL i q f cs = some none ↔ findInIdL i q cs = some none) := by
  cases cs with
  | nil => simp [updInIdL, findInIdL]
  | cons c cs =>
    have ihn := updInId_shape i q f c
    have ihl := updInIdL_shape i q f cs
    simp only [updInIdL, findInIdL]
    cases hu : updInId i q f c with
    | some r =>
      cases hf : findInId i q c with
      | none =>
        rw [ihn.1.mpr hf] at hu; cases hu
      | some rf =>
        cases r with
        | none =>
          have := ihn.2.mp hu
          rw [this] at hf
          simp only [Option.some_inj] at hf
          subst hf
          simp
        | some c2 =>
          cases rf with
          | none =>
            have := ihn.2.mpr hf
            rw [this] at hu
            simp at hu
          | some d => simp
    | none =>
      rw [ihn.1.mp hu]
      constructor
      · rw [Option.map_eq_none']
        exact ihl.1
      · constructor
        · intro h
          cases hul : updInIdL i q f cs with
          | none => rw [hul] at h; cases h
          | some r =>
            rw [hul] at h
            simp only [Option.map_some', Option.some_inj, Option.map_eq_none'] at h
            subst h
            exact ihl.2.mp hul
        · intro h
          rw [ihl.2.mpr h]
          rfl
end


mutual
theorem findInId_after_updInId (i : String) (q : ElemData → Bool) (f : ElemData → ElemData)
    (hq : ∀ d, q (f d) = q d) (n n2 : Node) (d : ElemData)
    (hu : updInId i q f n = some (some n2)) (hf : findInId i q n = some (some d)) :
    findInId i q n2 = some (some (f d)) := by
  cases n with
  | node d0 cs =>
    by_cases hm : (d0.idAttr == i) = true
    · simp only [updInId, hm, if_true, Option.some_inj] at hu
      simp only [findInId, hm, if_true, Option.some_inj] at hf
      simp only [Option.map_eq_some'] at hu
      obtain ⟨cs2, hcs2, hn2⟩ := hu
      subst hn2
      simp only [findInId, hm, if_true, Option.some_inj]
      exact qsFindL_after_qsUpdL (fun _ => false) q f hq (fun _ => rfl) true cs cs2 d hcs2 hf
    · simp only [updInId, hm, Bool.false_eq_true, if_false] at hu
      simp only [findInId, hm, Bool.false_eq_true, if_false] at hf
      cases hul : updInIdL i q f cs with
      | none => rw [hul] at hu; cases hu
      | some r =>
        rw [hul] at hu
        cases r with
        | none => simp at hu
        | some cs2 =>
          simp only [Option.map_some', Option.some_inj] at hu
          subst hu
          simp only [findInId, hm, Bool.false_eq_true, if_false]
          exact findInIdL_after_updInIdL i q f hq cs cs2 d hul hf

theorem findInIdL_after_updInIdL (i : String) (q : ElemData → Bool) (f : ElemData → ElemData)
    (hq : ∀ d, q (f d) = q d) (cs cs2 : List Node) (d : ElemData)
    (hu : updInIdL i q f cs = some (some cs2)) (hf : findInIdL i q cs = some (some d)) :
    findInIdL i q cs2 = some (some (f d)) := by
  cases cs with
  | nil => cases hu
  | cons c cs =>
    simp only [updInIdL] at hu
    simp only [findInIdL] at hf
    cases hc : updInId i q f c with
    | some r =>
      rw [hc] at hu
      cases r with
      | none => simp only [Option.some_inj] at hu; cases hu
      | some c2 =>
        simp only [Option.some_inj] at hu
        subst hu
        cases hfc : findInId i q c with
        | none =>
          rw [(updInId_shape i q f c).1.mpr hfc] at hc; cases hc
        | some rf =>
          rw [hfc] at hf
          cases rf with
          | none =>
            rw [(updInId_shape i q f c).2.mpr hfc] at hc
            simp at hc
          | some r0 =>
            simp only [Option.some_inj] at hf
            subst hf
            have := findInId_after_updInId i q f hq c c2 r0 hc hfc
            simp [findInIdL, this]
    | none =>
      rw [hc] at hu
      have hfc := (updInId_shape i q f c).1.mp hc
      rw [hfc] at hf
      cases hul : updInIdL i q f cs with
      | none => rw [hul] at hu; cases hu
      | some r =>
        rw [hul] at hu
        cases r with
        | none => simp at hu
        | some cs2b =>
          simp only [Option.map_some', Option.some_inj] at hu
          subst hu
          simp only [findInIdL, hfc]
          exact findInIdL_after_updInIdL i q f hq cs cs2b d hul hf
end


mutual
theorem idsOf_updInId (i : String) (q : ElemData → Bool) (f : ElemData → ElemData)
    (hid : ∀ d, (f d).idAttr = d.idAttr) (n n2 : Node)
    (h : updInId i q f n = some (some n2)) : idsOf n2 = idsOf n := by
  cases n with
  | node d0 cs =>
    by_cases hm : (d0.idAttr == i) = true
    · simp only [updInId, hm, if_true, Option.some_inj, Option.map_eq_some'] at h
      obtain ⟨cs2, hcs2, hn2⟩ := h
      subst hn2
      simp [idsOf, idsOfL_qsUpdL (fun _ => false) q f hid true cs cs2 hcs2]
    · simp only [updInId, hm, Bool.false_eq_true, if_false] at h
      cases hul : updInIdL i q f cs with
      | none => rw [hul] at h; cases h
      | some r =>
        rw [hul] at h
        cases r with
        | none => simp at h
        | some cs2 =>
          simp only [Option.map_some', Option.some_inj] at h
          subst h
          simp [idsOf, idsOfL_updInIdL i q f hid cs cs2 hul]

theorem idsOfL_updInIdL (i : String) (q : ElemData → Bool) (f : ElemData → ElemData)
    (hid : ∀ d, (f d).idAttr = d.idAttr) (cs cs2 : List Node)
    (h : updInIdL i q f cs = some (some cs2)) : idsOfL cs2 = idsOfL cs := by
  cases cs with
  | nil => cases h
  | cons c cs =>
    simp only [updInIdL] at h
    cases hc : updInId i q f c with
    | some r =>
      rw [hc] at h
      cases r with
      | none => simp only [Option.some_inj] at h; cases h
      | some c2 =>
        simp only [Option.some_inj] at h
        subst h
        simp [idsOfL, idsOf_updInId i q f hid c c2 hc]
    | none =>
      rw [hc] at h
      cases hul : updInIdL i q f cs with
      | none => rw [hul] at h; cases h
      | some r =>
        rw [hul] at h
        cases r with
        | none => simp at h
        | some cs2b =>
          simp only [Option.map_some', Option.some_inj] at h
          subst h
          simp [idsOfL, idsOfL_updInIdL i q f hid cs cs2b hul]
end


theorem idsOf_getD_qsUpd (anc q : ElemData → Bool) (f : ElemData → ElemData)
    (hid : ∀ d, (f d).idAttr = d.idAttr) (u : Bool) (n : Node) :
    idsOf ((qsUpd anc q f u n).getD n) = idsOf n := by
  cases h : qsUpd anc q f u n with
  | none => rfl
  | some n2 => simpa using idsOf_qsUpd anc q f hid u n n2 h

theorem idsOf_getD_removeFirst (q : ElemData → Bool) (n : Node) :
    List.Sublist (idsOf ((removeFirst q n).getD n)) (idsOf n) := by
  cases h : removeFirst q n with
  | none => exact List.Sublist.refl _
  | some n2 => simpa using idsOf_removeFirst q n n2 h

theorem idsOf_trackElUpd (tt : TrackType) (pid : String) (f : ElemData → ElemData)
    (hid : ∀ d, (f d).idAttr = d.idAttr) (n : Node) :
    idsOf (trackElUpd tt pid f n) = idsOf n := by
  cases tt with
  | video => exact idsOf_getD_qsUpd _ _ f hid false n
  | audio => exact idsOf_getD_qsUpd _ _ f hid true n

/-- Trace and document bookkeeping for `startOrUpdateTrack`: the trace is
extended by events of the entry's own kind and the id multiset of the document
is unchanged. -/
theorem startOrUpdateTrack_shape (tt : TrackType) (track : TrackInfo) (pid : String) (st : St) :
    idsOf (startOrUpdateTrack tt track pid st).1.doc = idsOf st.doc ∧
    ∃ t2, (startOrUpdateTrack tt track pid st).1.trace = st.trace ++ t2 ∧
      t2.all (entryEv tt pid) = true := by
  simp only [startOrUpdateTrack]
  split
  next heq =>
    exact ⟨rfl, [Ev.evStartOrUpdate tt pid,
      Ev.evLog (ttStr tt ++ " element does not exist for participant: " ++ pid)],
      by simp [logErr], by simp [entryEv]⟩
  next el heq =>
    split
    next heq2 => exact ⟨rfl, [Ev.evStartOrUpdate tt pid], rfl, by simp [entryEv]⟩
    next h heq2 =>
      split
      next hcond =>
        refine ⟨idsOf_trackElUpd tt pid
          (fun d => { d with srcObject := some ⟨st.fresh, [h]⟩ }) (fun d => rfl) st.doc, ?_⟩
        exact ⟨[Ev.evStartOrUpdate tt pid, Ev.evBind el.nid st.fresh, Ev.evPlay el.nid],
          by simp, by simp [entryEv]⟩
      next hcond => exact ⟨rfl, [Ev.evStartOrUpdate tt pid], rfl, by simp [entryEv]⟩

theorem entryEv_weaken (tt : TrackType) (pid : String) (e : Ev)
    (h : entryEv tt pid e = true) : entryAnyEv pid e = true := by
  cases e with
  | evStartOrUpdate tt2 pid2 =>
    simp only [entryEv, Bool.and_eq_true] at h
    simp [entryAnyEv, h.2]
  | evCreateContainer p => simp [entryEv] at h
  | evCreateAudio p => simp [entryEv] at h
  | evCount => simp [entryEv] at h
  | evBind a b => simp [entryAnyEv]
  | evPlay a => simp [entryAnyEv]
  | evDetach a => simp [entryAnyEv]
  | evRemove a => simp [entryAnyEv]
  | evLog m => simp [entryAnyEv]

theorem shapeOK_refl (p : Ev → Bool) (st : St) : shapeOK p st (st, none) :=
  ⟨List.Sublist.refl _, [], by simp, rfl⟩

theorem shapeOK_thenC (p : Ev → Bool) (st : St) (r : JsRes) (k : St → JsRes)
    (h1 : shapeOK p st r) (h2 : ∀ s, shapeOK p s (k s)) :
    shapeOK p st (thenC r k) := by
  obtain ⟨st1, err⟩ := r
  cases err with
  | none =>
    obtain ⟨hs1, t2, ht2, hall2⟩ := h1
    obtain ⟨hs2, t3, ht3, hall3⟩ := h2 st1
    refine ⟨hs2.trans hs1, t2 ++ t3, ?_, ?_⟩
    · simp only [thenC]
      rw [ht3, ht2, List.append_assoc]
    · simp [List.all_append, hall2, hall3]
  | some e => simpa [thenC] using h1

theorem idsOf_getD_updById (i : String) (f : ElemData → ElemData)
    (hid : ∀ d, (f d).idAttr = d.idAttr) (n : Node) :
    idsOf ((updById i f n).getD n) = idsOf n :=
  idsOf_getD_qsUpd _ _ f hid true n

theorem startOrUpdateTrack_shapeOK (tt : TrackType) (track : TrackInfo) (pid : String)
    (st : St) : shapeOK (entryEv tt pid) st (startOrUpdateTrack tt track pid st) := by
  obtain ⟨h1, t2, h2, h3⟩ := startOrUpdateTrack_shape tt track pid st
  exact ⟨by rw [h1], t2, h2, h3⟩

theorem destroyTracksOne_shapeOK (tt : TrackType) (pid : String) (st : St) :
    shapeOK (entryEv tt pid) st (destroyTracks [tt] pid st, none) := by
  simp only [destroyTracks, List.foldl_cons, List.foldl_nil, destroyOne]
  split
  next heq => exact shapeOK_refl _ _
  next el heq =>
    refine ⟨?_, [Ev.evDetach el.nid, Ev.evRemove el.nid], rfl, by simp [entryEv]⟩
    have h1 := idsOf_getD_updById (ttStr tt ++ "-" ++ pid)
      (fun d => { d with srcObject := none }) (fun d => rfl) st.doc
    have h2 := idsOf_getD_removeFirst (isId (ttStr tt ++ "-" ++ pid))
      ((updById (ttStr tt ++ "-" ++ pid) (fun d => { d with srcObject := none }) st.doc).getD
        st.doc)
    rw [h1] at h2
    exact h2

theorem updateVideoUi_shapeOK (p : Ev → Bool) (ti : TrackInfo) (pid : String) (st : St) :
    shapeOK p st (updateVideoUi ti pid st) := by
  simp only [updateVideoUi]
  split
  · exact ⟨List.Sublist.refl _, [], by simp, rfl⟩
  · exact ⟨List.Sublist.refl _, [], by simp, rfl⟩
  · refine ⟨?_, [], by simp, rfl⟩
    split
    next n2 heq =>
      rw [idsOf_updInId ("video-container-" ++ pid) isVideoEl
        (fun d => { d with display := displayFor ti.state }) (fun d => rfl) st.doc n2 heq]
    next heq => exact List.Sublist.refl _

theorem updateUiForDevicesState_shapeOK (p : Ev → Bool) (tt : TrackType) (ti : TrackInfo)
    (st : St) : shapeOK p st (updateUiForDevicesState tt ti st) := by
  cases tt with
  | video =>
    simp only [updateUiForDevicesState]
    split
    · exact ⟨List.Sublist.refl _, [], by simp, rfl⟩
    · refine ⟨?_, [], by simp, rfl⟩
      rw [idsOf_getD_updById "camera-state"
        (fun d => { d with
          text := "Camera: " ++ (if st.call.localVideo then "On" else "Off") })
        (fun d => rfl) st.doc]
  | audio =>
    simp only [updateUiForDevicesState]
    split
    · exact ⟨List.Sublist.refl _, [], by simp, rfl⟩
    · refine ⟨?_, [], by simp, rfl⟩
      rw [idsOf_getD_updById "mic-state"
        (fun d => { d with
          text := "Mic: " ++ (if st.call.localAudio then "On" else "Off") })
        (fun d => rfl) st.doc]

theorem processTrackEntry_shapeOK (isLocal : Bool) (pid : String) (tt : TrackType)
    (ti : TrackInfo) (st : St) :
    shapeOK (entryEv tt pid) st (processTrackEntry isLocal pid tt ti st) := by
  simp only [processTrackEntry]
  apply shapeOK_thenC
  · split
    · split
      · exact startOrUpdateTrack_shapeOK tt ti pid st
      · exact shapeOK_refl _ _
    · exact destroyTracksOne_shapeOK tt pid st
  · intro s
    apply shapeOK_thenC
    · split
      · exact updateVideoUi_shapeOK _ ti pid s
      · exact shapeOK_refl _ _
    · intro s2
      split
      · exact updateUiForDevicesState_shapeOK _ tt ti s2
      · exact shapeOK_refl _ _

theorem shapeOK_weaken (p p2 : Ev → Bool) (hw : ∀ e, p e = true → p2 e = true) (st : St)
    (r : JsRes) (h : shapeOK p st r) : shapeOK p2 st r := by
  obtain ⟨h1, t2, h2, h3⟩ := h
  refine ⟨h1, t2, h2, ?_⟩
  simp only [List.all_eq_true] at h3 ⊢
  exact fun e he => hw e (h3 e he)

theorem shapeOK_comp (p : Ev → Bool) (st : St) (r1 r2 : JsRes) (h1 : shapeOK p st r1)
    (h2 : shapeOK p r1.1 r2) : shapeOK p st r2 := by
  obtain ⟨ha, t2, hb, hc⟩ := h1
  obtain ⟨hd, t3, he, hf⟩ := h2
  exact ⟨hd.trans ha, t2 ++ t3, by rw [he, hb, List.append_assoc],
    by simp [List.all_append, hc, hf]⟩

theorem shapeOK_thenC_acc (p : Ev → Bool) (acc : JsRes) (k : St → JsRes)
    (h2 : ∀ s, shapeOK p s (k s)) : shapeOK p acc.1 (thenC acc k) := by
  obtain ⟨st1, err⟩ := acc
  cases err with
  | none => simpa [thenC] using h2 st1
  | some e => exact ⟨List.Sublist.refl _, [], by simp [thenC], rfl⟩

theorem entriesFold_shapeOK (isLocal : Bool) (pid : String) (p : Ev → Bool)
    (hstep : ∀ (tt : TrackType) (ti : TrackInfo) (s : St),
      shapeOK p s (processTrackEntry isLocal pid tt ti s))
    (entries : List (TrackType × TrackInfo)) :
    ∀ acc : JsRes, shapeOK p acc.1
      (entries.foldl
        (fun r p3 => thenC r (fun st2 => processTrackEntry isLocal pid p3.1 p3.2 st2)) acc) := by
  induction entries with
  | nil =>
    intro acc
    exact ⟨List.Sublist.refl _, [], by simp, rfl⟩
  | cons pr ps ih =>
    intro acc
    simp only [List.foldl_cons]
    refine shapeOK_comp p acc.1
      (thenC acc (fun st2 => processTrackEntry isLocal pid pr.1 pr.2 st2)) _ ?_ (ih _)
    exact shapeOK_thenC_acc p acc _ (fun s => hstep pr.1 pr.2 s)

theorem entryEv_video_weaken (pid : String) (e : Ev)
    (h : entryEv TrackType.video pid e = true) : localEntryEv pid e = true := by
  cases e with
  | evStartOrUpdate tt2 pid2 => simpa [entryEv, localEntryEv] using h
  | evCreateContainer x => simp [entryEv] at h
  | evCreateAudio x => simp [entryEv] at h
  | evCount => simp [entryEv] at h
  | evBind a b => simp [localEntryEv]
  | evPlay a => simp [localEntryEv]
  | evDetach a => simp [localEntryEv]
  | evRemove a => simp [localEntryEv]
  | evLog m => simp [localEntryEv]

theorem destroyTracksOne_shapeOK_gen (p : Ev → Bool) (tt : TrackType) (pid : String) (st : St)
    (hp1 : ∀ a, p (Ev.evDetach a) = true) (hp2 : ∀ a, p (Ev.evRemove a) = true) :
    shapeOK p st (destroyTracks [tt] pid st, none) := by
  simp only [destroyTracks, List.foldl_cons, List.foldl_nil, destroyOne]
  split
  next heq => exact shapeOK_refl _ _
  next el heq =>
    refine ⟨?_, [Ev.evDetach el.nid, Ev.evRemove el.nid], rfl, by simp [hp1, hp2]⟩
    have h1 := idsOf_getD_updById (ttStr tt ++ "-" ++ pid)
      (fun d => { d with srcObject := none }) (fun d => rfl) st.doc
    have h2 := idsOf_getD_removeFirst (isId (ttStr tt ++ "-" ++ pid))
      ((updById (ttStr tt ++ "-" ++ pid) (fun d => { d with srcObject := none }) st.doc).getD
        st.doc)
    rw [h1] at h2
    exact h2

theorem processTrackEntry_local_shapeOK (pid : String) (tt : TrackType) (ti : TrackInfo)
    (st : St) : shapeOK (localEntryEv pid) st (processTrackEntry true pid tt ti st) := by
  simp only [processTrackEntry]
  apply shapeOK_thenC
  · split
    · split
      next hskip =>
        cases tt with
        | video =>
          exact shapeOK_weaken _ _ (entryEv_video_weaken pid) st _
            (startOrUpdateTrack_shapeOK TrackType.video ti pid st)
        | audio => simp at hskip
      · exact shapeOK_refl _ _
    · exact destroyTracksOne_shapeOK_gen _ tt pid st (fun a => by simp [localEntryEv])
        (fun a => by simp [localEntryEv])
  · intro s
    apply shapeOK_thenC
    · split
      · exact updateVideoUi_shapeOK _ ti pid s
      · exact shapeOK_refl _ _
    · intro s2
      split
      · exact updateUiForDevicesState_shapeOK _ tt ti s2
      · exact shapeOK_refl _ _

theorem vcId_ne_empty (p : String) : ("video-container-" ++ p) ≠ "" := by
  intro h
  have h2 := congrArg String.length h
  simp only [String.length_append] at h2
  have h16 : ("video-container-" : String).length = 16 := by decide
  have h0 : ("" : String).length = 0 := by decide
  omega

theorem audioId_ne_empty (p : String) : ("audio-" ++ p) ≠ "" := by
  intro h
  exact emptyId_ne_audioId p h.symm

theorem handler_eq_creation_fold (ev : PEvent) (st : St) :
    handleParticipantJoinedOrUpdated ev st =
      ev.participant.tracks.foldl
        (fun r p3 => thenC r (fun st2 =>
          processTrackEntry ev.participant.localFlag ev.participant.session_id p3.1 p3.2 st2))
        (creationPhase ev st, none) := rfl

theorem not_mem_ids_createVideoContainer (pid : String) (st : St) (x : String)
    (hx1 : x ∉ idsOf st.doc) (hx2 : x ≠ "video-container-" ++ pid) (hx3 : x ≠ "") :
    x ∉ idsOf (createVideoContainer pid st).doc := by
  simp only [createVideoContainer]
  cases h : appendChild (isId "videos")
      (Node.node ⟨st.fresh, "div", "video-container-" ++ pid, ["video-container"], "", none, ""⟩
        [Node.node ⟨st.fresh + 1, "video", "", ["video-element"], "", none, ""⟩ []]) st.doc with
  | none => simpa [h] using hx1
  | some n2 =>
    have hp := idsOf_appendChild _ _ _ n2 h
    intro hmem
    have h2 : x ∈ idsOf n2 := by simpa [h] using hmem
    have h3 := hp.mem_iff.mp h2
    simp only [idsOf, idsOfL, List.append_nil, List.mem_append, List.mem_cons,
      List.mem_singleton, List.not_mem_nil, or_false] at h3
    rcases h3 with h3 | h3 | h3
    · exact hx1 h3
    · exact hx2 h3
    · exact hx3 h3

theorem not_mem_ids_createAudioElement (pid : String) (st : St) (x : String)
    (hx1 : x ∉ idsOf st.doc) (hx2 : x ≠ "audio-" ++ pid) :
    x ∉ idsOf (createAudioElement pid st).doc := by
  simp only [createAudioElement]
  cases h : appendChild (isId "videos")
      (Node.node ⟨st.fresh, "audio", "audio-" ++ pid, [], "", none, ""⟩ []) st.doc with
  | none => simpa [h] using hx1
  | some n2 =>
    have hp := idsOf_appendChild _ _ _ n2 h
    intro hmem
    have h2 : x ∈ idsOf n2 := by simpa [h] using hmem
    have h3 := hp.mem_iff.mp h2
    simp only [idsOf, idsOfL, List.append_nil, List.mem_append, List.mem_cons,
      List.not_mem_nil, or_false] at h3
    rcases h3 with h3 | h3
    · exact hx1 h3
    · exact hx2 h3

theorem creationPhase_not_mem_ids (ev : PEvent) (st : St) (x : String)
    (hx1 : x ∉ idsOf st.doc)
    (hx2 : x ≠ "video-container-" ++ ev.participant.session_id)
    (hx3 : x ≠ "") (hx4 : x ≠ "audio-" ++ ev.participant.session_id) :
    x ∉ idsOf (creationPhase ev st).doc := by
  simp only [creationPhase, updateAndDisplayParticipantCount]
  have hmid : ∀ stM : St, x ∉ idsOf stM.doc →
      x ∉ idsOf (if (getById ("audio-" ++ ev.participant.session_id) stM.doc).isNone
          && !ev.participant.localFlag then
        createAudioElement ev.participant.session_id stM else stM).doc := by
    intro stM hM
    split
    · exact not_mem_ids_createAudioElement _ stM x hM hx4
    · exact hM
  apply hmid
  split
  · exact not_mem_ids_createVideoContainer _ _ x hx1 hx2 hx3
  · exact hx1

theorem dupFree_createVideoContainer (pid : String) (st : St)
    (hguard : getById ("video-container-" ++ pid) st.doc = none)
    (h : dupFreeIds st.doc) : dupFreeIds (createVideoContainer pid st).doc := by
  have hnot : ("video-container-" ++ pid) ∉ idsOf st.doc := (getById_eq_none_iff _ _).mp hguard
  simp only [createVideoContainer]
  cases happ : appendChild (isId "videos")
      (Node.node ⟨st.fresh, "div", "video-container-" ++ pid, ["video-container"], "", none, ""⟩
        [Node.node ⟨st.fresh + 1, "video", "", ["video-element"], "", none, ""⟩ []]) st.doc with
  | none => simpa [happ] using h
  | some n2 =>
    have hp := idsOf_appendChild _ _ _ n2 happ
    unfold dupFreeIds at h ⊢
    simp only [happ, Option.getD_some]
    rw [(hp.filter _).nodup_iff, List.filter_append]
    have hfc : List.filter (fun s => s != "")
        (idsOf (Node.node ⟨st.fresh, "div", "video-container-" ++ pid, ["video-container"],
          "", none, ""⟩ [Node.node ⟨st.fresh + 1, "video", "", ["video-element"], "", none, ""⟩
            []])) = ["video-container-" ++ pid] := by
      simp [idsOf, idsOfL, vcId_ne_empty pid]
    rw [hfc]
    refine List.Nodup.append h (List.nodup_singleton _) ?_
    intro b hb hbmem
    simp only [List.mem_singleton] at hbmem
    subst hbmem
    exact hnot (List.mem_of_mem_filter hb)

theorem dupFree_createAudioElement (pid : String) (st : St)
    (hguard : getById ("audio-" ++ pid) st.doc = none)
    (h : dupFreeIds st.doc) : dupFreeIds (createAudioElement pid st).doc := by
  have hnot : ("audio-" ++ pid) ∉ idsOf st.doc := (getById_eq_none_iff _ _).mp hguard
  simp only [createAudioElement]
  cases happ : appendChild (isId "videos")
      (Node.node ⟨st.fresh, "audio", "audio-" ++ pid, [], "", none, ""⟩ []) st.doc with
  | none => simpa [happ] using h
  | some n2 =>
    have hp := idsOf_appendChild _ _ _ n2 happ
    unfold dupFreeIds at h ⊢
    simp only [happ, Option.getD_some]
    rw [(hp.filter _).nodup_iff, List.filter_append]
    have hfc : List.filter (fun s => s != "")
        (idsOf (Node.node ⟨st.fresh, "audio", "audio-" ++ pid, [], "", none, ""⟩ [])) =
        ["audio-" ++ pid] := by
      simp [idsOf, idsOfL, audioId_ne_empty pid]
    rw [hfc]
    refine List.Nodup.append h (List.nodup_singleton _) ?_
    intro b hb hbmem
    simp only [List.mem_singleton] at hbmem
    subst hbmem
    exact hnot (List.mem_of_mem_filter hb)

theorem dupFree_creationPhase (ev : PEvent) (st : St) (h : dupFreeIds st.doc) :
    dupFreeIds (creationPhase ev st).doc := by
  simp only [creationPhase, updateAndDisplayParticipantCount]
  have hmid : ∀ stM : St, dupFreeIds stM.doc →
      dupFreeIds (if (getById ("audio-" ++ ev.participant.session_id) stM.doc).isNone
          && !ev.participant.localFlag then
        createAudioElement ev.participant.session_id stM else stM).doc := by
    intro stM hM
    split
    next hcond =>
      have hg : getById ("audio-" ++ ev.participant.session_id) stM.doc = none := by
        simp only [Bool.and_eq_true, Option.isNone_iff_eq_none] at hcond
        exact hcond.1
      exact dupFree_createAudioElement _ stM hg hM
    next hcond => exact hM
  apply hmid
  split
  next hcond =>
    have hg : getById ("video-container-" ++ ev.participant.session_id) st.doc = none := by
      simpa [Option.isNone_iff_eq_none] using hcond
    exact dupFree_createVideoContainer _ _ hg h
  next hcond => exact h

theorem creationPhase_trace (ev : PEvent) (st : St) :
    ∃ tC, (creationPhase ev st).trace = st.trace ++ tC ∧
      (∀ tt p, Ev.evStartOrUpdate tt p ∉ tC) ∧
      (ev.participant.localFlag = true → ∀ p, Ev.evCreateAudio p ∉ tC) := by
  simp only [creationPhase, updateAndDisplayParticipantCount, createVideoContainer,
    createAudioElement]
  split
  next hc1 =>
    split
    next hc2 =>
      have hremote : ev.participant.localFlag = false := by
        simp only [Bool.and_eq_true, Bool.not_eq_true'] at hc2
        exact hc2.2
      refine ⟨[Ev.evCount, Ev.evCreateContainer ev.participant.session_id,
        Ev.evCreateAudio ev.participant.session_id], by simp, ?_, ?_⟩
      · intro tt p hp
        simp only [List.mem_cons, List.mem_singleton] at hp
        rcases hp with hp | hp | hp | hp
        · cases hp
        · cases hp
        · cases hp
        · cases hp
      · intro hl
        rw [hl] at hremote
        cases hremote
    next hc2 =>
      refine ⟨[Ev.evCount, Ev.evCreateContainer ev.participant.session_id], by simp, ?_, ?_⟩
      · intro tt p hp
        simp only [List.mem_cons, List.mem_singleton] at hp
        rcases hp with hp | hp | hp
        · cases hp
        · cases hp
        · cases hp
      · intro hl p hp
        simp only [List.mem_cons, List.mem_singleton] at hp
        rcases hp with hp | hp | hp
        · cases hp
        · cases hp
        · cases hp
  next hc1 =>
    split
    next hc2 =>
      have hremote : ev.participant.localFlag = false := by
        simp only [Bool.and_eq_true, Bool.not_eq_true'] at hc2
        exact hc2.2
      refine ⟨[Ev.evCount, Ev.evCreateAudio ev.participant.session_id], by simp, ?_, ?_⟩
      · intro tt p hp
        simp only [List.mem_cons, List.mem_singleton] at hp
        rcases hp with hp | hp | hp
        · cases hp
        · cases hp
        · cases hp
      · intro hl
        rw [hl] at hremote
        cases hremote
    next hc2 =>
      refine ⟨[Ev.evCount], rfl, ?_, ?_⟩
      · intro tt p hp
        simp only [List.mem_singleton] at hp
        cases hp
      · intro hl p hp
        simp only [List.mem_singleton] at hp
        cases hp

theorem handler_trace_local (ev : PEvent) (st : St) (hloc : ev.participant.localFlag = true) :
    ∃ tH, (handleParticipantJoinedOrUpdated ev st).1.trace = st.trace ++ tH ∧
      (∀ p, Ev.evStartOrUpdate TrackType.audio p ∉ tH) ∧
      (∀ p, Ev.evCreateAudio p ∉ tH) := by
  rw [handler_eq_creation_fold, hloc]
  obtain ⟨tC, hC1, hC2, hC3⟩ := creationPhase_trace ev st
  obtain ⟨hsub, t2, ht2, hall⟩ :=
    entriesFold_shapeOK true ev.participant.session_id
      (localEntryEv ev.participant.session_id)
      (fun tt ti s => processTrackEntry_local_shapeOK _ tt ti s)
      ev.participant.tracks (creationPhase ev st, none)
  refine ⟨tC ++ t2, by rw [ht2, hC1, List.append_assoc], ?_, ?_⟩
  · intro p hp
    simp only [List.mem_append] at hp
    rcases hp with hp | hp
    · exact hC2 TrackType.audio p hp
    · have := (List.all_eq_true.mp hall) _ hp
      simp [localEntryEv] at this
  · intro p hp
    simp only [List.mem_append] at hp
    rcases hp with hp | hp
    · exact hC3 hloc p hp
    · have := (List.all_eq_true.mp hall) _ hp
      simp [localEntryEv] at this

theorem handler_dupFree (ev : PEvent) (st : St) (h : dupFreeIds st.doc) :
    dupFreeIds (handleParticipantJoinedOrUpdated ev st).1.doc := by
  rw [handler_eq_creation_fold]
  have hC := dupFree_creationPhase ev st h
  obtain ⟨hsub, _⟩ :=
    entriesFold_shapeOK ev.participant.localFlag ev.participant.session_id
      (entryAnyEv ev.participant.session_id)
      (fun tt ti s => shapeOK_weaken _ _ (entryEv_weaken tt _) s _
        (processTrackEntry_shapeOK _ _ tt ti s))
      ev.participant.tracks (creationPhase ev st, none)
  unfold dupFreeIds at hC ⊢
  exact List.Nodup.sublist (hsub.filter _) hC

theorem handleAll_dupFree (evs : List PEvent) (st : St) (h : dupFreeIds st.doc) :
    dupFreeIds (handleAll evs st).doc := by
  induction evs generalizing st with
  | nil => simpa [handleAll] using h
  | cons e es ih =>
    have h2 := ih ((handleParticipantJoinedOrUpdated e st).1) (handler_dupFree e st h)
    simpa [handleAll] using h2


theorem pairedTeardown_append (a b : List Ev) (ha : pairedTeardown a = true)
    (hb : pairedTeardown b = true) : pairedTeardown (a ++ b) = true := by
  induction a using pairedTeardown.induct with
  | case1 => simpa using hb
  | case2 n m rest ih =>
    simp only [pairedTeardown, Bool.and_eq_true] at ha
    simp only [List.cons_append, pairedTeardown, Bool.and_eq_true]
    exact ⟨ha.1, ih ha.2⟩
  | case3 x hx => simp [pairedTeardown] at ha

mutual
theorem cleanupN_paired (u : Bool) (n : Node) : pairedTeardown (cleanupN u n).2 = true := by
  cases n with
  | node d cs =>
    simp only [cleanupN]
    exact cleanupL_paired _ cs

theorem cleanupL_paired (u : Bool) (cs : List Node) :
    pairedTeardown (cleanupL u cs).2 = true := by
  cases cs with
  | nil => rfl
  | cons c cs =>
    simp only [cleanupL]
    split
    · simp only [pairedTeardown, Bool.and_eq_true]
      exact ⟨by simp, cleanupL_paired u cs⟩
    · exact pairedTeardown_append _ _ (cleanupN_paired u c) (cleanupL_paired u cs)
end


mutual
theorem cleanupN_no_media (u : Bool) (n : Node) :
    countUnder (fun d => d.idAttr == "videos") (fun d => d.tag == "video" || d.tag == "audio")
      u (cleanupN u n).1 =
      (if u && (n.data.tag == "video" || n.data.tag == "audio") then 1 else 0) := by
  cases n with
  | node d cs =>
    simp only [cleanupN, countUnder, Node.data_node]
    rw [cleanupL_no_media (u || (d.idAttr == "videos")) cs]
    omega

theorem cleanupL_no_media (u : Bool) (cs : List Node) :
    countUnderL (fun d => d.idAttr == "videos") (fun d => d.tag == "video" || d.tag == "audio")
      u (cleanupL u cs).1 = 0 := by
  cases cs with
  | nil => rfl
  | cons c cs =>
    simp only [cleanupL]
    split
    next hm => exact cleanupL_no_media u cs
    next hm =>
      simp only [countUnderL]
      rw [cleanupN_no_media u c, cleanupL_no_media u cs]
      simp only [matchesLeaveSel, Bool.or_eq_true, not_or, Bool.and_eq_true] at hm
      rcases hm with ⟨hm1, hm2⟩
      cases u with
      | false => simp
      | true =>
        have hv : (c.data.tag == "video") = false := by
          cases hvv : c.data.tag == "video" with
          | false => rfl
          | true => exact absurd ⟨rfl, hvv⟩ hm2
        simp [hv, hm1]

theorem cleanupN_no_audio (u : Bool) (n : Node) :
    countUnder (fun _ => false) (fun d => d.tag == "audio") true (cleanupN u n).1 =
      (if n.data.tag == "audio" then 1 else 0) := by
  cases n with
  | node d cs =>
    simp only [cleanupN, countUnder, Node.data_node, Bool.or_false]
    rw [cleanupL_no_audio (u || (d.idAttr == "videos")) cs]
    simp

theorem cleanupL_no_audio (u : Bool) (cs : List Node) :
    countUnderL (fun _ => false) (fun d => d.tag == "audio") true (cleanupL u cs).1 = 0 := by
  cases cs with
  | nil => rfl
  | cons c cs =>
    simp only [cleanupL]
    split
    next hm => exact cleanupL_no_audio u cs
    next hm =>
      simp only [countUnderL]
      rw [cleanupN_no_audio u c, cleanupL_no_audio u cs]
      simp only [matchesLeaveSel, Bool.or_eq_true, not_or, Bool.and_eq_true] at hm
      simp [hm.1]
end


mutual
theorem countVideosOutside_true (n : Node) : countVideosOutside true n = 0 := by
  cases n with
  | node d cs =>
    simp only [countVideosOutside, Bool.not_true, Bool.false_and, Bool.false_eq_true, if_false,
      Bool.true_or]
    rw [countVideosOutsideL_true cs]

theorem countVideosOutsideL_true (cs : List Node) : countVideosOutsideL true cs = 0 := by
  cases cs with
  | nil => rfl
  | cons c cs =>
    simp only [countVideosOutsideL]
    rw [countVideosOutside_true c, countVideosOutsideL_true cs]
end


theorem countVideosOutside_of_matches (u : Bool) (c : Node)
    (hm : matchesLeaveSel u c.data = true) (hch : audiosChildless c = true) :
    countVideosOutside u c = 0 := by
  cases c with
  | node d2 cs2 =>
    simp only [matchesLeaveSel, Node.data_node, Bool.or_eq_true, Bool.and_eq_true] at hm
    simp only [audiosChildless, Bool.and_eq_true, Bool.or_eq_true] at hch
    rcases hm with hm | hm
    · have htag : d2.tag = "audio" := eq_of_beq hm
      have hemp : cs2 = [] := by
        rcases hch.1 with hch1 | hch1
        · rw [htag] at hch1; simp at hch1
        · simpa [List.isEmpty_iff] using hch1
      subst hemp
      simp [countVideosOutside, countVideosOutsideL, htag]
    · rw [hm.1]
      simp only [countVideosOutside, Bool.not_true, Bool.false_and, Bool.false_eq_true, if_false,
        Bool.true_or]
      rw [countVideosOutsideL_true cs2]

mutual
theorem cleanupN_videosOutside (u : Bool) (n : Node) (h : audiosChildless n = true) :
    countVideosOutside u (cleanupN u n).1 = countVideosOutside u n := by
  cases n with
  | node d cs =>
    simp only [audiosChildless, Bool.and_eq_true] at h
    simp only [cleanupN, countVideosOutside]
    rw [cleanupL_videosOutside (u || (d.idAttr == "videos")) cs h.2]

theorem cleanupL_videosOutside (u : Bool) (cs : List Node) (h : audiosChildlessL cs = true) :
    countVideosOutsideL u (cleanupL u cs).1 = countVideosOutsideL u cs := by
  cases cs with
  | nil => rfl
  | cons c cs =>
    simp only [audiosChildlessL, Bool.and_eq_true] at h
    simp only [cleanupL]
    split
    next hm =>
      rw [cleanupL_videosOutside u cs h.2]
      have hc0 := countVideosOutside_of_matches u c hm h.1
      simp only [countVideosOutsideL]
      omega
    next hm =>
      simp only [countVideosOutsideL]
      rw [cleanupN_videosOutside u c h.1, cleanupL_videosOutside u cs h.2]
end


theorem trackElLookup_after_upd (tt : TrackType) (pid : String) (f : ElemData → ElemData)
    (hq : ∀ d, isVideoEl (f d) = isVideoEl d) (hid : ∀ d, (f d).idAttr = d.idAttr)
    (n : Node) (el : ElemData) (hel : trackElLookup tt pid n = some el) :
    trackElLookup tt pid (trackElUpd tt pid f n) = some (f el) := by
  cases tt with
  | video =>
    simp only [trackElLookup, trackElUpd] at hel ⊢
    cases hupd : qsUpd (isId ("video-container-" ++ pid)) isVideoEl f false n with
    | none =>
      rw [(qsUpd_eq_none_iff _ _ _ _ _).mp hupd] at hel
      cases hel
    | some n2 =>
      simpa using qsFind_after_qsUpd (isId ("video-container-" ++ pid)) isVideoEl f hq
        (fun d => by simp [isId, hid]) false n n2 el hupd hel
  | audio =>
    simp only [trackElLookup, trackElUpd, getById, updById] at hel ⊢
    cases hupd : qsUpd (fun _ => false) (isId ("audio-" ++ pid)) f true n with
    | none =>
      rw [(qsUpd_eq_none_iff _ _ _ _ _).mp hupd] at hel
      cases hel
    | some n2 =>
      simpa using qsFind_after_qsUpd (fun _ => false) (isId ("audio-" ++ pid)) f
        (fun d => by simp [isId, hid]) (fun d => rfl) true n n2 el hupd hel

/-- Root data is unchanged by `appendChild`. -/
theorem appendChild_data (q : ElemData → Bool) (c : Node) (n n2 : Node)
    (h : appendChild q c n = some n2) : n2.data = n.data := by
  cases n with
  | node d cs =>
    by_cases hm : q d = true
    · simp only [appendChild, hm, if_true, Option.some_inj] at h
      subst h
      rfl
    · simp only [appendChild, hm, Bool.false_eq_true, if_false, Option.map_eq_some'] at h
      obtain ⟨cs2, _, hn2⟩ := h
      subst hn2
      rfl

/-- C10: when the target media element cannot be found in the DOM,
`startOrUpdateTrack` logs an error and aborts before any binding or playback:
no exception escapes, the document, the freshness counter and the call handle
are untouched, and the only appended trace events are the instrumented entry
and the logged error — in particular no `evBind` and no `evPlay`. -/
theorem C10_missing_element_logs_and_aborts (tt : TrackType) (track : TrackInfo)
    (pid : String) (st : St) (h : trackElLookup tt pid st.doc = none) :
    startOrUpdateTrack tt track pid st =
      ({ st with trace := st.trace ++ [Ev.evStartOrUpdate tt pid,
          Ev.evLog (ttStr tt ++ " element does not exist for participant: " ++ pid)] },
        none) := by
  simp only [startOrUpdateTrack, h, logErr, List.append_assoc, List.cons_append,
    List.nil_append]

/-- Witness for C10 at a concrete state with no `audio-p9` element. -/
theorem C10_missing_element_logs_and_aborts_witness :
    trackElLookup TrackType.audio "p9" sampleSt.doc = none ∧
    startOrUpdateTrack TrackType.audio ⟨"playable", some 5⟩ "p9" sampleSt =
      ({ sampleSt with trace := sampleSt.trace ++ [Ev.evStartOrUpdate TrackType.audio "p9",
          Ev.evLog (ttStr TrackType.audio ++ " element does not exist for participant: "
            ++ "p9")] }, none) :=
  ⟨by decide,
    C10_missing_element_logs_and_aborts TrackType.audio ⟨"playable", some 5⟩ "p9" sampleSt
      (by decide)⟩

/-- C5: if the live handle is already among the tracks of the element's bound
source, reconciliation is a no-op — the state is unchanged except for the
instrumented entry event, so the bound source object and playback are
untouched; otherwise the element's source is replaced wholesale by a fresh
single-track stream containing exactly that handle, playback is scheduled and
the freshness counter advances. -/
theorem C5_reconcile_noop_or_wholesale_replace (tt : TrackType) (track : TrackInfo)
    (pid : String) (st : St) (el : ElemData) (h : Nat)
    (hel : trackElLookup tt pid st.doc = some el)
    (hpt : track.persistentTrack = some h) :
    (∀ s, el.srcObject = some s → h ∈ s.tracks →
      startOrUpdateTrack tt track pid st =
        ({ st with trace := st.trace ++ [Ev.evStartOrUpdate tt pid] }, none)) ∧
    ((∀ s, el.srcObject = some s → h ∉ s.tracks) →
      (startOrUpdateTrack tt track pid st).2 = none ∧
      trackElLookup tt pid (startOrUpdateTrack tt track pid st).1.doc =
        some { el with srcObject := some ⟨st.fresh, [h]⟩ } ∧
      (startOrUpdateTrack tt track pid st).1.trace =
        st.trace ++ [Ev.evStartOrUpdate tt pid, Ev.evBind el.nid st.fresh,
          Ev.evPlay el.nid] ∧
      (startOrUpdateTrack tt track pid st).1.fresh = st.fresh + 1) := by
  constructor
  · intro s hs hmem
    have hcont : s.tracks.contains h = true := by
      simpa using hmem
    simp only [startOrUpdateTrack, hel, hpt, hs, hcont, Bool.not_true, Bool.false_eq_true,
      if_false]
  · intro hnot
    have hneeds : (match el.srcObject with
        | none => true
        | some s => !(s.tracks.contains h)) = true := by
      cases hso : el.srcObject with
      | none => rfl
      | some s =>
        have hm := hnot s hso
        simpa using hm
    simp only [startOrUpdateTrack, hel, hpt, hneeds, if_true]
    refine ⟨trivial, ?_, by simp, trivial⟩
    exact trackElLookup_after_upd tt pid
      (fun d => { d with srcObject := some ⟨st.fresh, [h]⟩ })
      (fun d => by simp [isVideoEl]) (fun d => rfl) st.doc el hel

/-- Witness for C5 at a concrete state: the `audio-p1` element already holds
handle 8 (no-op case) and does not hold handle 9 (replacement case). -/
theorem C5_reconcile_noop_or_wholesale_replace_witness :
    trackElLookup TrackType.audio "p1" sampleSt.doc =
      some ⟨4, "audio", "audio-p1", [], "", some ⟨51, [8]⟩, ""⟩ ∧
    startOrUpdateTrack TrackType.audio ⟨"playable", some 8⟩ "p1" sampleSt =
      ({ sampleSt with
          trace := sampleSt.trace ++ [Ev.evStartOrUpdate TrackType.audio "p1"] }, none) ∧
    trackElLookup TrackType.audio "p1"
        (startOrUpdateTrack TrackType.audio ⟨"playable", some 9⟩ "p1" sampleSt).1.doc =
      some ⟨4, "audio", "audio-p1", [], "", some ⟨sampleSt.fresh, [9]⟩, ""⟩ :=
  ⟨by decide,
    (C5_reconcile_noop_or_wholesale_replace TrackType.audio ⟨"playable", some 8⟩ "p1"
        sampleSt ⟨4, "audio", "audio-p1", [], "", some ⟨51, [8]⟩, ""⟩ 8 (by decide)
        (by decide)).1
      ⟨51, [8]⟩ (by decide) (by decide),
    ((C5_reconcile_noop_or_wholesale_replace TrackType.audio ⟨"playable", some 9⟩ "p1"
        sampleSt ⟨4, "audio", "audio-p1", [], "", some ⟨51, [8]⟩, ""⟩ 9 (by decide)
        (by decide)).2
      (fun s hs => by
        injection hs with hs2
        subst hs2
        decide)).2.1⟩

/-- C4: the update-visibility step maps the video descriptor's state to the
video element's display: `off`, `interrupted` and `blocked` hide the element
(display `none`); `playable` and every other state leave it visible
(display `""`); the step completes without an exception. -/
theorem C4_visibility_mapping (track : TrackInfo) (pid : String) (st : St) (el : ElemData)
    (h : findInId ("video-container-" ++ pid) isVideoEl st.doc = some (some el)) :
    (updateVideoUi track pid st).2 = none ∧
    findInId ("video-container-" ++ pid) isVideoEl (updateVideoUi track pid st).1.doc =
      some (some { el with display := displayFor track.state }) ∧
    ((track.state = "off" ∨ track.state = "interrupted" ∨ track.state = "blocked") →
      displayFor track.state = "none") ∧
    (track.state ≠ "off" → track.state ≠ "interrupted" → track.state ≠ "blocked" →
      displayFor track.state = "") := by
  have hshape := updInId_shape ("video-container-" ++ pid) isVideoEl
    (fun d => { d with display := displayFor track.state }) st.doc
  have hupd : ∃ n2, updInId ("video-container-" ++ pid) isVideoEl
      (fun d => { d with display := displayFor track.state }) st.doc = some (some n2) := by
    cases hu : updInId ("video-container-" ++ pid) isVideoEl
        (fun d => { d with display := displayFor track.state }) st.doc with
    | none => rw [hshape.1.mp hu] at h; cases h
    | some r =>
      cases r with
      | none => rw [hshape.2.mp hu] at h; simp at h
      | some n2 => exact ⟨n2, rfl⟩
  obtain ⟨n2, hn2⟩ := hupd
  refine ⟨?_, ?_, ?_, ?_⟩
  · simp only [updateVideoUi, h]
  · simp only [updateVideoUi, h, hn2]
    exact findInId_after_updInId ("video-container-" ++ pid) isVideoEl
      (fun d => { d with display := displayFor track.state })
      (fun d => by simp [isVideoEl]) st.doc n2 el hn2 h
  · intro hs
    rcases hs with hs | hs | hs
    all_goals simp [displayFor, hs]
  · intro h1 h2 h3
    simp [displayFor, h1, h2, h3]

/-- Witness for C4 at a concrete state: state `interrupted` hides the video,
state `mystery` leaves it visible. -/
theorem C4_visibility_mapping_witness :
    findInId ("video-container-" ++ "p1") isVideoEl sampleSt.doc =
      some (some ⟨3, "video", "", ["video-element"], "", some ⟨50, [7]⟩, ""⟩) ∧
    findInId ("video-container-" ++ "p1") isVideoEl
        (updateVideoUi ⟨"interrupted", some 7⟩ "p1" sampleSt).1.doc =
      some (some ⟨3, "video", "", ["video-element"],
        displayFor "interrupted", some ⟨50, [7]⟩, ""⟩) ∧
    displayFor "interrupted" = "none" ∧ displayFor "mystery" = "" :=
  ⟨by decide,
    (C4_visibility_mapping ⟨"interrupted", some 7⟩ "p1" sampleSt
        ⟨3, "video", "", ["video-element"], "", some ⟨50, [7]⟩, ""⟩ (by decide)).2.1,
    (C4_visibility_mapping ⟨"interrupted", some 7⟩ "p1" sampleSt
        ⟨3, "video", "", ["video-element"], "", some ⟨50, [7]⟩, ""⟩ (by decide)).2.2.1
      (Or.inr (Or.inl rfl)),
    by decide⟩

/-- C2 counterexample: handling a participant event is not exception-free —
with a container that lacks its video child, the unguarded lookup in the
update-visibility step makes the handler propagate a TypeError to its
caller. -/
theorem C2_counterexample_handler_throws :
    (handleParticipantJoinedOrUpdated evRemoteBoth brokenSt).2 =
      some ("TypeError: cannot read style of null for: " ++ "p1") := by decide

/-- C2 amended: the reconcile-media-source step never throws when the
descriptor carries a live handle — a missing projection element there is
logged and the step returns early — but the update-visibility step performs
unguarded lookups: it completes without an exception exactly when the
container and its video child are found, and otherwise throws a TypeError
which the handler propagates to its caller. -/
theorem C2_amended_throw_surface (tt : TrackType) (track track2 : TrackInfo)
    (pid pid2 : String) (st st2 : St) (h : Nat)
    (hpt : track.persistentTrack = some h) :
    (startOrUpdateTrack tt track pid st).2 = none ∧
    ((updateVideoUi track2 pid2 st2).2 = none ↔
      ((findInId ("video-container-" ++ pid2) isVideoEl st2.doc).bind id).isSome = true) := by
  constructor
  · simp only [startOrUpdateTrack]
    split
    · rfl
    · split
      next heq => rw [hpt] at heq; cases heq
      next h2 heq =>
        split
        · rfl
        · rfl
  · simp only [updateVideoUi]
    split
    next heq => simp [heq]
    next heq => simp [heq]
    next el heq => simp [heq]

/-- Witness for C2's amended statement at concrete inputs: a live video track
on the complete document, and the broken container for the visibility step. -/
theorem C2_amended_throw_surface_witness :
    (⟨"playable", some 7⟩ : TrackInfo).persistentTrack = some 7 ∧
    (startOrUpdateTrack TrackType.video ⟨"playable", some 7⟩ "p1" sampleSt).2 = none ∧
    ((updateVideoUi ⟨"playable", some 7⟩ "p1" brokenSt).2 = none ↔
      ((findInId ("video-container-" ++ "p1") isVideoEl brokenSt.doc).bind id).isSome =
        true) :=
  ⟨by decide,
    (C2_amended_throw_surface TrackType.video ⟨"playable", some 7⟩ ⟨"playable", some 7⟩
      "p1" "p1" sampleSt brokenSt 7 (by decide)).1,
    (C2_amended_throw_surface TrackType.video ⟨"playable", some 7⟩ ⟨"playable", some 7⟩
      "p1" "p1" sampleSt brokenSt 7 (by decide)).2⟩

/-- C3: `destroyTracks` with track-type `video` looks up id `video-{pid}`;
when no element bears that id the call leaves the whole reconciler state
unchanged, and handling any event for that participant never creates an
element with that id (the conventions create `video-container-{pid}`,
`audio-{pid}` and an id-less video element only), so destroy tracks never
removes a video projection element. -/
theorem C3_destroy_video_is_noop (pid : String) (st : St) (ev : PEvent)
    (habs : getById ("video-" ++ pid) st.doc = none)
    (hpid : ev.participant.session_id = pid) :
    destroyTracks [TrackType.video] pid st = st ∧
    getById ("video-" ++ pid) (handleParticipantJoinedOrUpdated ev st).1.doc = none := by
  constructor
  · simp only [destroyTracks, List.foldl_cons, List.foldl_nil, destroyOne]
    have hbr : ttStr TrackType.video ++ "-" ++ pid = "video-" ++ pid := rfl
    rw [hbr, habs]
  · rw [getById_eq_none_iff, handler_eq_creation_fold]
    have hx1 : ("video-" ++ pid) ∉ idsOf st.doc := (getById_eq_none_iff _ _).mp habs
    have hC : ("video-" ++ pid) ∉ idsOf (creationPhase ev st).doc := by
      apply creationPhase_not_mem_ids ev st _ hx1
      · rw [hpid]; exact Ne.symm (vcId_ne_vId pid)
      · exact Ne.symm (emptyId_ne_vId pid)
      · rw [hpid]; exact Ne.symm (audioId_ne_vId pid pid)
    obtain ⟨hsub, _⟩ :=
      entriesFold_shapeOK ev.participant.localFlag ev.participant.session_id
        (entryAnyEv ev.participant.session_id)
        (fun tt ti s => shapeOK_weaken _ _ (entryEv_weaken tt _) s _
          (processTrackEntry_shapeOK _ _ tt ti s))
        ev.participant.tracks (creationPhase ev st, none)
    intro hmem
    exact hC (hsub.subset hmem)

/-- Witness for C3 at a concrete state: no `video-p1` element exists in the
sample document, destroy tracks is the identity there, and handling a full
remote event never introduces such an element. -/
theorem C3_destroy_video_is_noop_witness :
    getById ("video-" ++ "p1") sampleSt.doc = none ∧
    destroyTracks [TrackType.video] "p1" sampleSt = sampleSt ∧
    getById ("video-" ++ "p1")
      (handleParticipantJoinedOrUpdated evRemoteBoth sampleSt).1.doc = none :=
  ⟨by decide,
    (C3_destroy_video_is_noop "p1" sampleSt evRemoteBoth (by decide) (by decide)).1,
    (C3_destroy_video_is_noop "p1" sampleSt evRemoteBoth (by decide) (by decide)).2⟩

/-- C6: when the snapshot is for the local participant, the handler never
invokes the reconcile-media-source step for the audio track-type: no
`evStartOrUpdate audio` event for any participant id appears in the trace the
event handling appends, regardless of the audio descriptor's live handle. -/
theorem C6_local_audio_never_reconciled (ev : PEvent) (st : St)
    (hloc : ev.participant.localFlag = true) (p : String) :
    Ev.evStartOrUpdate TrackType.audio p ∉
      (handleParticipantJoinedOrUpdated ev st).1.trace.drop st.trace.length := by
  obtain ⟨tH, h1, h2, h3⟩ := handler_trace_local ev st hloc
  intro hp
  rw [h1, List.drop_left] at hp
  exact h2 p hp

/-- Witness for C6 at a concrete local event with a live audio handle. -/
theorem C6_local_audio_never_reconciled_witness :
    evLocalBoth.participant.localFlag = true ∧
    Ev.evStartOrUpdate TrackType.audio "p3" ∉
      (handleParticipantJoinedOrUpdated evLocalBoth videosOnlySt).1.trace.drop
        videosOnlySt.trace.length :=
  ⟨by decide, C6_local_audio_never_reconciled evLocalBoth videosOnlySt (by decide) "p3"⟩

/-- C7 counterexample: a second identical invocation does not always create
nothing — for a remote participant whose audio descriptor carries no live
handle, each invocation re-creates the audio element (and immediately destroys
it again), so two create-audio events accumulate in the trace. -/
theorem C7_counterexample_second_invocation_creates :
    ((handleParticipantJoinedOrUpdated evRemoteAudioOff
        (handleParticipantJoinedOrUpdated evRemoteAudioOff videosOnlySt).1).1.trace.count
      (Ev.evCreateAudio "p2")) = 2 := by decide

/-- C7 amended: handling any sequence of joined/updated events preserves the
invariant that nonempty element ids are pairwise distinct — in particular at
most one video container and at most one audio element exist per participant
id — and an audio element is created only when the participant is remote; a
second identical invocation may however transiently re-create an audio element
that the same invocation destroys again, when the remote audio descriptor
carries no live handle. -/
theorem C7_amended_at_most_one_projection (evs : List PEvent) (st : St) (ev : PEvent)
    (st2 : St) (i : String) (p : String) (hinv : dupFreeIds st.doc)
    (hloc : ev.participant.localFlag = true) (hi : i ≠ "") :
    dupFreeIds (handleAll evs st).doc ∧
    countMatch (isId i) (handleAll evs st).doc ≤ 1 ∧
    Ev.evCreateAudio p ∉
      (handleParticipantJoinedOrUpdated ev st2).1.trace.drop st2.trace.length := by
  have hAll := handleAll_dupFree evs st hinv
  refine ⟨hAll, dupFreeIds_count _ hAll i hi, ?_⟩
  obtain ⟨tH, h1, h2, h3⟩ := handler_trace_local ev st2 hloc
  intro hp
  rw [h1, List.drop_left] at hp
  exact h3 p hp

/-- Witness for C7's amended statement at concrete inputs. -/
theorem C7_amended_at_most_one_projection_witness :
    dupFreeIds sampleSt.doc ∧ evLocalBoth.participant.localFlag = true ∧
    ("audio-p1" : String) ≠ "" ∧
    dupFreeIds (handleAll [evRemoteBoth] sampleSt).doc ∧
    countMatch (isId "audio-p1") (handleAll [evRemoteBoth] sampleSt).doc ≤ 1 ∧
    Ev.evCreateAudio "p3" ∉
      (handleParticipantJoinedOrUpdated evLocalBoth videosOnlySt).1.trace.drop
        videosOnlySt.trace.length :=
  ⟨by decide, by decide, by decide,
    (C7_amended_at_most_one_projection [evRemoteBoth] sampleSt evLocalBoth videosOnlySt
      "audio-p1" "p3" (by decide) (by decide) (by decide)).1,
    (C7_amended_at_most_one_projection [evRemoteBoth] sampleSt evLocalBoth videosOnlySt
      "audio-p1" "p3" (by decide) (by decide) (by decide)).2.1,
    (C7_amended_at_most_one_projection [evRemoteBoth] sampleSt evLocalBoth videosOnlySt
      "audio-p1" "p3" (by decide) (by decide) (by decide)).2.2⟩

/-- C8: leave is atomic with respect to the DOM: when the SDK leave succeeds,
no video or audio element remains under the `#videos` root and the appended
trace is exactly a sequence of detach-then-remove pairs, each media source set
to null before its element is removed; when the SDK leave fails, the failure
is logged and the document is completely unchanged. -/
theorem C8_leave_atomic (st : St) :
    countUnder (fun d => d.idAttr == "videos")
      (fun d => d.tag == "video" || d.tag == "audio") false (leave true st).doc = 0 ∧
    pairedTeardown ((leave true st).trace.drop st.trace.length) = true ∧
    (leave false st).doc = st.doc ∧
    (leave false st).trace = st.trace ++ [Ev.evLog "Leaving failed"] := by
  refine ⟨?_, ?_, rfl, rfl⟩
  · simp only [leave, if_pos]
    rw [cleanupN_no_media false st.doc]
    simp
  · simp only [leave, if_pos]
    rw [List.drop_left]
    exact cleanupN_paired false st.doc

/-- C9: the cleanup selector `'#videos video, audio'` removes every audio
element of the whole document — not only those under the `#videos` root —
while the removal of video elements is scoped: video elements outside the
`#videos` subtree survive a successful leave. -/
theorem C9_leave_selector_scope (st : St)
    (hchild : audiosChildless st.doc = true)
    (hroot : (st.doc.data.tag == "audio") = false) :
    countMatch (fun d => d.tag == "audio") (leave true st).doc = 0 ∧
    countVideosOutside false (leave true st).doc = countVideosOutside false st.doc := by
  constructor
  · simp only [leave, if_pos, countMatch]
    rw [cleanupN_no_audio false st.doc]
    simp [hroot]
  · simp only [leave, if_pos]
    exact cleanupN_videosOutside false st.doc hchild

/-- Witness for C9: the stray audio outside `#videos` is removed while the
stray video outside `#videos` survives. -/
theorem C9_leave_selector_scope_witness :
    audiosChildless strayMediaSt.doc = true ∧
    (strayMediaSt.doc.data.tag == "audio") = false ∧
    countMatch (fun d => d.tag == "audio") (leave true strayMediaSt).doc = 0 ∧
    countVideosOutside false (leave true strayMediaSt).doc =
      countVideosOutside false strayMediaSt.doc :=
  ⟨by decide, by decide,
    (C9_leave_selector_scope strayMediaSt (by decide) (by decide)).1,
    (C9_leave_selector_scope strayMediaSt (by decide) (by decide)).2⟩

theorem creationPhase_audio_intact (pid : String) (st : St) (ev : PEvent) (el : ElemData)
    (hpidEv : ev.participant.session_id = pid)
    (hel : getById ("audio-" ++ pid) st.doc = some el)
    (hcount : countUnder (fun _ => false) (isId ("audio-" ++ pid)) true st.doc = 1)
    (hroot : isId ("audio-" ++ pid) st.doc.data = false) :
    getById ("audio-" ++ pid) (creationPhase ev st).doc = some el ∧
    countUnder (fun _ => false) (isId ("audio-" ++ pid)) true (creationPhase ev st).doc = 1 ∧
    isId ("audio-" ++ pid) (creationPhase ev st).doc.data = false := by
  have hne1 : (("video-container-" ++ pid) == ("audio-" ++ pid)) = false :=
    beq_eq_false_iff_ne.mpr (vcId_ne_audioId pid pid)
  have hne2 : (("" : String) == ("audio-" ++ pid)) = false :=
    beq_eq_false_iff_ne.mpr (emptyId_ne_audioId pid)
  simp only [creationPhase, updateAndDisplayParticipantCount, hpidEv]
  have hmain : ∀ stM : St, getById ("audio-" ++ pid) stM.doc = some el →
      countUnder (fun _ => false) (isId ("audio-" ++ pid)) true stM.doc = 1 →
      isId ("audio-" ++ pid) stM.doc.data = false →
      (getById ("audio-" ++ pid)
          (if (getById ("audio-" ++ pid) stM.doc).isNone && !ev.participant.localFlag then
            createAudioElement pid stM else stM).doc = some el ∧
        countUnder (fun _ => false) (isId ("audio-" ++ pid)) true
          (if (getById ("audio-" ++ pid) stM.doc).isNone && !ev.participant.localFlag then
            createAudioElement pid stM else stM).doc = 1 ∧
        isId ("audio-" ++ pid)
          (if (getById ("audio-" ++ pid) stM.doc).isNone && !ev.participant.localFlag then
            createAudioElement pid stM else stM).doc.data = false) := by
    intro stM h1 h2 h3
    rw [if_neg (by simp [h1])]
    exact ⟨h1, h2, h3⟩
  refine hmain _ ?_ ?_ ?_
  · split
    next hcond =>
      simp only [createVideoContainer]
      cases happ : appendChild (isId "videos")
          (Node.node ⟨st.fresh, "div", "video-container-" ++ pid, ["video-container"], "",
            none, ""⟩
            [Node.node ⟨st.fresh + 1, "video", "", ["video-element"], "", none, ""⟩ []])
          st.doc with
      | none => simpa [happ] using hel
      | some n2 =>
        have hcnone : qsFind (fun _ => false) (isId ("audio-" ++ pid)) true
            (Node.node ⟨st.fresh, "div", "video-container-" ++ pid, ["video-container"], "",
              none, ""⟩
              [Node.node ⟨st.fresh + 1, "video", "", ["video-element"], "", none, ""⟩ []]) =
            none := by
          simp [qsFind, qsFindL, isId, hne1, hne2]
        have hq := qsFind_appendChild (isId "videos") (isId ("audio-" ++ pid)) _ hcnone
          st.doc n2 happ
        simp only [getById] at hel ⊢
        simp only [happ, Option.getD_some]
        rw [hq]
        exact hel
    next hcond => exact hel
  · split
    next hcond =>
      simp only [createVideoContainer]
      cases happ : appendChild (isId "videos")
          (Node.node ⟨st.fresh, "div", "video-container-" ++ pid, ["video-container"], "",
            none, ""⟩
            [Node.node ⟨st.fresh + 1, "video", "", ["video-element"], "", none, ""⟩ []])
          st.doc with
      | none => simpa [happ] using hcount
      | some n2 =>
        have hp := idsOf_appendChild (isId "videos") _ st.doc n2 happ
        simp only [happ, Option.getD_some]
        rw [countUnder_eq_ids_count, hp.count_eq, List.count_append]
        rw [countUnder_eq_ids_count] at hcount
        have hz : (idsOf (Node.node ⟨st.fresh, "div", "video-container-" ++ pid,
            ["video-container"], "", none, ""⟩
            [Node.node ⟨st.fresh + 1, "video", "", ["video-element"], "", none, ""⟩
              []])).count ("audio-" ++ pid) = 0 := by
          simp [idsOf, idsOfL, List.count_cons, hne1, hne2]
        rw [hz, hcount]
    next hcond => exact hcount
  · split
    next hcond =>
      simp only [createVideoContainer]
      cases happ : appendChild (isId "videos")
          (Node.node ⟨st.fresh, "div", "video-container-" ++ pid, ["video-container"], "",
            none, ""⟩
            [Node.node ⟨st.fresh + 1, "video", "", ["video-element"], "", none, ""⟩ []])
          st.doc with
      | none => simpa [happ] using hroot
      | some n2 =>
        simp only [happ, Option.getD_some]
        rw [appendChild_data _ _ _ _ happ]
        exact hroot
    next hcond => exact hroot

/-- C1 counterexample: a video descriptor with no live media handle does not
tear down the video projection — after handling the event, the participant's
video element is still in the DOM and its media source is still attached (only
its display was set to `none`). -/
theorem C1_counterexample_video_not_torn_down :
    (handleParticipantJoinedOrUpdated evVideoOff sampleSt).2 = none ∧
    trackElLookup TrackType.video "p1"
      (handleParticipantJoinedOrUpdated evVideoOff sampleSt).1.doc =
      some ⟨3, "video", "", ["video-element"], "none", some ⟨50, [7]⟩, ""⟩ := by decide

/-- C1 amended: for an audio descriptor with no live media handle, handling
the event removes the participant's audio element from the DOM, detaching its
media source first (the trace ends with the detach event immediately followed
by the removal); for track-type video the removal path looks up id
`video-{id}`, which no projection element bears, so the video element is not
removed (it is only hidden by the visibility step). -/
theorem C1_amended_track_loss_teardown (pid : String) (st : St) (ti : TrackInfo)
    (el : ElemData) (hpt : ti.persistentTrack = none)
    (hel : getById ("audio-" ++ pid) st.doc = some el)
    (hcount : countMatch (isId ("audio-" ++ pid)) st.doc = 1)
    (hroot : isId ("audio-" ++ pid) st.doc.data = false) :
    (handleParticipantJoinedOrUpdated ⟨⟨pid, false, [(TrackType.audio, ti)]⟩⟩ st).2 = none ∧
    getById ("audio-" ++ pid)
      (handleParticipantJoinedOrUpdated ⟨⟨pid, false, [(TrackType.audio, ti)]⟩⟩ st).1.doc =
      none ∧
    ∃ t0,
      (handleParticipantJoinedOrUpdated ⟨⟨pid, false, [(TrackType.audio, ti)]⟩⟩ st).1.trace =
        t0 ++ [Ev.evDetach el.nid, Ev.evRemove el.nid] := by
  obtain ⟨F1, F2, F3⟩ := creationPhase_audio_intact pid st
    ⟨⟨pid, false, [(TrackType.audio, ti)]⟩⟩ el rfl hel hcount hroot
  rw [handler_eq_creation_fold]
  have hbeqv : (TrackType.audio == TrackType.video) = false := by decide
  have hbr : ttStr TrackType.audio ++ "-" ++ pid = "audio-" ++ pid := rfl
  simp only [List.foldl_cons, List.foldl_nil, thenC, processTrackEntry, hpt,
    Option.isSome_none, Bool.false_eq_true, if_false, hbeqv, destroyTracks, destroyOne,
    hbr, F1]
  set stC := creationPhase ⟨⟨pid, false, [(TrackType.audio, ti)]⟩⟩ st with hstC
  have hup : ∃ n1, updById ("audio-" ++ pid) (fun d => { d with srcObject := none }) stC.doc
      = some n1 := by
    cases hu : updById ("audio-" ++ pid) (fun d => { d with srcObject := none }) stC.doc with
    | none =>
      rw [updById, qsUpd_eq_none_iff] at hu
      rw [getById] at F1
      rw [hu] at F1
      cases F1
    | some n1 => exact ⟨n1, rfl⟩
  obtain ⟨n1, hn1⟩ := hup
  have hn1q : qsUpd (fun _ => false) (isId ("audio-" ++ pid))
      (fun d => { d with srcObject := none }) true stC.doc = some n1 := hn1
  have hfind1 : qsFind (fun _ => false) (isId ("audio-" ++ pid)) true n1 =
      some { el with srcObject := none } :=
    qsFind_after_qsUpd (fun _ => false) (isId ("audio-" ++ pid))
      (fun d => { d with srcObject := none }) (fun d => by simp [isId]) (fun d => rfl)
      true stC.doc n1 el hn1q (by rw [getById] at F1; exact F1)
  have hdata1 : n1.data = stC.doc.data :=
    qsUpd_data (fun _ => false) (isId ("audio-" ++ pid))
      (fun d => { d with srcObject := none }) true stC.doc n1 hn1q (by simp [F3])
  have hcount1 : countUnder (fun _ => false) (isId ("audio-" ++ pid)) true n1 = 1 := by
    rw [countUnder_eq_ids_count,
      idsOf_qsUpd (fun _ => false) (isId ("audio-" ++ pid))
        (fun d => { d with srcObject := none }) (fun d => rfl) true stC.doc n1 hn1q,
      ← countUnder_eq_ids_count]
    exact F2
  have hremS : (removeFirst (isId ("audio-" ++ pid)) n1).isSome = true := by
    apply removeFirst_isSome
    · rw [hdata1]; exact F3
    · rw [hfind1]; simp
  cases hrem : removeFirst (isId ("audio-" ++ pid)) n1 with
  | none => rw [hrem] at hremS; simp at hremS
  | some n3 =>
    have hc3 := countUnder_removeFirst (isId ("audio-" ++ pid)) n1 n3 hrem
    have hzero : countUnder (fun _ => false) (isId ("audio-" ++ pid)) true n3 = 0 := by
      omega
    have hnone3 : qsFind (fun _ => false) (isId ("audio-" ++ pid)) true n3 = none :=
      (qsFind_eq_none_iff_countUnder _ _ _ _).mpr hzero
    refine ⟨trivial, ?_, stC.trace, rfl⟩
    simp only [hn1, Option.getD_some, hrem, getById]
    exact hnone3

/-- Witness for C1's amended statement at a concrete state: the audio element
of `p1` is removed with its source detached first. -/
theorem C1_amended_track_loss_teardown_witness :
    (⟨"off", none⟩ : TrackInfo).persistentTrack = none ∧
    getById ("audio-" ++ "p1") sampleSt.doc =
      some ⟨4, "audio", "audio-p1", [], "", some ⟨51, [8]⟩, ""⟩ ∧
    countMatch (isId ("audio-" ++ "p1")) sampleSt.doc = 1 ∧
    isId ("audio-" ++ "p1") sampleSt.doc.data = false ∧
    getById ("audio-" ++ "p1")
      (handleParticipantJoinedOrUpdated ⟨⟨"p1", false, [(TrackType.audio, ⟨"off", none⟩)]⟩⟩
        sampleSt).1.doc = none ∧
    (∃ t0, (handleParticipantJoinedOrUpdated
        ⟨⟨"p1", false, [(TrackType.audio, ⟨"off", none⟩)]⟩⟩ sampleSt).1.trace =
      t0 ++ [Ev.evDetach 4, Ev.evRemove 4]) :=
  ⟨by decide, by decide, by decide, by decide,
    (C1_amended_track_loss_teardown "p1" sampleSt ⟨"off", none⟩
      ⟨4, "audio", "audio-p1", [], "", some ⟨51, [8]⟩, ""⟩ (by decide) (by decide)
      (by decide) (by decide)).2.1,
    (C1_amended_track_loss_teardown "p1" sampleSt ⟨"off", none⟩
      ⟨4, "audio", "audio-p1", [], "", some ⟨51, [8]⟩, ""⟩ (by decide) (by decide)
      (by decide) (by decide)).2.2⟩
